import Mathlib

/-!
Shallow embedding of the inventory-reservation and payment-settlement core
of an order-checkout backend (FastAPI + SQLAlchemy source).

The relational store is modelled as lists of records; SQLAlchemy row
mutation under a transaction is modelled as pure state passing, where a
raised HTTPException followed by `db.rollback()` is modelled by returning
the input database unchanged, and `db.commit()` by returning the mutated
database.  External collaborators (the HMAC primitive, the webhook
signature check, the random order-number generator, the clock) are passed
in as explicit parameters.

Embedded source files:
  app/api/v1/orders.py      (create_order, cancel_order)
  app/api/v1/payments.py    (verify_payment, razorpay_webhook)
  app/services/order_service.py (auto_cancel_pending_orders)
  app/services/payment_service.py (create_cod_payment)
  app/models/{order,payment,product,cart}.py (data model)
-/

namespace Amzira

/-- Enum OrderStatus from app/models/order.py. -/
inductive OrderStatus where
  | pending
  | confirmed
  | processing
  | shipped
  | delivered
  | cancelled
  | refunded
deriving DecidableEq, Repr

/-- Enum PaymentStatus from app/models/payment.py. -/
inductive PaymentStatus where
  | pending
  | success
  | failed
  | refunded
deriving DecidableEq, Repr

/-- Enum PaymentMethod from app/models/payment.py. -/
inductive PaymentMethod where
  | razorpay
  | cod
deriving DecidableEq, Repr

/-- Row of product_variants (app/models/product.py).  Stock is an SQL
integer, hence `Int`; the spec claims it never goes negative. -/
structure ProductVariant where
  id : Nat
  product_id : Nat
  size : String
  color : Option String
  additional_price : Rat
  stock_quantity : Int
deriving DecidableEq, Repr

/-- Row of products (app/models/product.py), the fields the core reads. -/
structure Product where
  id : Nat
  name : String
  base_price : Rat
  sale_price : Option Rat
deriving DecidableEq, Repr

/-- Row of orders (app/models/order.py).  Timestamps are minutes on an
integer clock. -/
structure Order where
  id : Nat
  order_number : String
  user_id : Nat
  subtotal : Rat
  tax_amount : Rat
  shipping_charge : Rat
  total_amount : Rat
  status : OrderStatus
  expires_at : Option Int
  stock_deducted : Bool
  idempotency_key : String
  shipping_address_id : Nat
  billing_address_id : Nat
  customer_notes : Option String
  created_at : Int
deriving DecidableEq, Repr

/-- Row of order_items (app/models/order_item.py / models/order.py). -/
structure OrderItem where
  id : Nat
  order_id : Nat
  product_id : Nat
  variant_id : Nat
  product_name : String
  variant_details : String
  quantity : Nat
  unit_price : Rat
  total_price : Rat
deriving DecidableEq, Repr

/-- Row of payments (app/models/payment.py). -/
structure Payment where
  id : Nat
  order_id : Nat
  payment_method : PaymentMethod
  payment_status : PaymentStatus
  amount : Rat
  razorpay_order_id : Option String
  razorpay_payment_id : Option String
  razorpay_signature : Option String
  paid_at : Option Int
deriving DecidableEq, Repr

/-- Row of cart_items (app/models/cart.py), the fields create_order reads. -/
structure CartItem where
  id : Nat
  user_id : Nat
  product_id : Nat
  variant_id : Nat
  quantity : Nat
deriving DecidableEq, Repr

/-- Row of addresses, reduced to the ownership pair the core checks. -/
structure Address where
  id : Nat
  user_id : Nat
deriving DecidableEq, Repr

/-- The relational state touched by the checkout core.  The counters model
autoincrement primary keys. -/
structure DB where
  variants : List ProductVariant
  products : List Product
  orders : List Order
  order_items : List OrderItem
  payments : List Payment
  cart_items : List CartItem
  addresses : List Address
  next_order_id : Nat
  next_order_item_id : Nat
  next_payment_id : Nat
deriving DecidableEq, Repr

/-- Errors raised by the embedded endpoints (the HTTPException payloads). -/
inductive ApiError where
  | emptyCart
  | addressNotFound
  | variantNotFound (vid : Nat)
  | insufficientStock (productName : String)
  | orderNumberExhausted
  | paymentCancelled
  | paymentNotFound
  | forbidden
  | invalidSignature
  | alreadyProcessed
  | paymentFailedRetry
  | invalidWebhookSignature
  | orderNotFound
  | cannotCancelShipped
  | internalError
deriving DecidableEq, Repr

/-! ### List-of-rows helpers (the ORM query surface) -/

/-- SELECT ... WHERE id = vid LIMIT 1 over product_variants. -/
def findVariant? (vs : List ProductVariant) (vid : Nat) : Option ProductVariant :=
  vs.find? (fun v => v.id == vid)

/-- SELECT ... WHERE id = pid LIMIT 1 over products. -/
def findProduct? (ps : List Product) (pid : Nat) : Option Product :=
  ps.find? (fun p => p.id == pid)

/-- SELECT ... WHERE id = oid LIMIT 1 over orders. -/
def findOrder? (os : List Order) (oid : Nat) : Option Order :=
  os.find? (fun o => o.id == oid)

/-- UPDATE of the variant row with the given id. -/
def updateVariant (vs : List ProductVariant) (vid : Nat)
    (f : ProductVariant → ProductVariant) : List ProductVariant :=
  vs.map (fun v => if v.id = vid then f v else v)

/-- UPDATE of the order row with the given id. -/
def updateOrderIn (os : List Order) (oid : Nat) (f : Order → Order) : List Order :=
  os.map (fun o => if o.id = oid then f o else o)

/-- UPDATE of the payment row with the given id. -/
def updatePaymentIn (ps : List Payment) (pid : Nat) (f : Payment → Payment) : List Payment :=
  ps.map (fun p => if p.id = pid then f p else p)

/-- Items of an order, i.e. the order.items relationship. -/
def itemsOf (db : DB) (oid : Nat) : List OrderItem :=
  db.order_items.filter (fun it => it.order_id == oid)

/-- Stock of the variant with the given id, if present. -/
def stockOf (db : DB) (vid : Nat) : Option Int :=
  (findVariant? db.variants vid).map (fun v => v.stock_quantity)

/-- Decrement of a variant stock counter (variant.stock_quantity -= q). -/
def subStock (q : Nat) (v : ProductVariant) : ProductVariant :=
  { v with stock_quantity := v.stock_quantity - q }

/-- Increment of a variant stock counter (variant.stock_quantity += q). -/
def addStock (q : Nat) (v : ProductVariant) : ProductVariant :=
  { v with stock_quantity := v.stock_quantity + q }

/-- Sequential per-variant stock deduction: the deduction loops of
create_order (over the collapsed quantity dict) and of
verify_payment/razorpay_webhook (over order.items). -/
def deductQuantities (vs : List ProductVariant) (qs : List (Nat × Nat)) :
    List ProductVariant :=
  qs.foldl (fun acc p => updateVariant acc p.1 (subStock p.2)) vs

/-- Sequential per-variant stock restoration: the restore loops of
cancel_order, _cancel_order_and_restore_stock and
auto_cancel_pending_orders.  A missing variant id leaves the list
unchanged, which is exactly the `if variant:` skip in the sweep. -/
def restoreQuantities (vs : List ProductVariant) (qs : List (Nat × Nat)) :
    List ProductVariant :=
  qs.foldl (fun acc p => updateVariant acc p.1 (addStock p.2)) vs

/-- The (variant_id, quantity) pairs of a list of order items, in list
order. -/
def itemQuantities (items : List OrderItem) : List (Nat × Nat) :=
  items.map (fun it => (it.variant_id, it.quantity))

/-! ### create_order (app/api/v1/orders.py) -/

/-- Request body OrderCreate (app/schemas/order.py). -/
structure OrderCreateData where
  shipping_address_id : Nat
  billing_address_id : Nat
  payment_method : String
  customer_notes : Option String
  idempotency_key : String
deriving DecidableEq, Repr

/-- The order resolved by a create_order call: its id, its human-readable
number and its committed status (the JSON response is a serialization of
these fields). -/
structure CreateReply where
  order_id : Nat
  order_number : String
  order_status : OrderStatus
deriving DecidableEq, Repr

def GST_RATE : Rat := 18/100
def FREE_SHIPPING_THRESHOLD : Rat := 2000
def DEFAULT_SHIPPING_CHARGE : Rat := 100

/-- One step of the requested_quantities dict accumulation
(requested_quantities[vid] = requested_quantities.get(vid, 0) + qty),
keeping Python dict insertion order. -/
def addQuantity (acc : List (Nat × Nat)) (vid qty : Nat) : List (Nat × Nat) :=
  if acc.any (fun p => p.1 == vid) then
    acc.map (fun p => if p.1 = vid then (p.1, p.2 + qty) else p)
  else acc ++ [(vid, qty)]

/-- Collapse cart lines into per-variant requested quantities; several
cart rows for the same variant sum together. -/
def collapseQuantities (cart : List CartItem) : List (Nat × Nat) :=
  cart.foldl (fun acc c => addQuantity acc c.variant_id c.quantity) []

/-- Ids create_order locks, in acquisition order:
sorted(requested_quantities.keys()). -/
def create_order_lock_sequence (cart : List CartItem) : List Nat :=
  List.insertionSort (· ≤ ·) ((collapseQuantities cart).map Prod.fst)

/-- Ids verify_payment locks, in the order passed to the FOR UPDATE
query: sorted({item.variant_id for item in order.items}). -/
def verify_payment_lock_sequence (items : List OrderItem) : List Nat :=
  List.insertionSort (· ≤ ·) ((items.map (fun it => it.variant_id)).dedup)

/-- Ids razorpay_webhook locks, in the order passed to the FOR UPDATE
query: sorted({item.variant_id for item in order.items}). -/
def webhook_lock_sequence (items : List OrderItem) : List Nat :=
  List.insertionSort (· ≤ ·) ((items.map (fun it => it.variant_id)).dedup)

/-- Ids auto_cancel_pending_orders locks, in the order passed to the FOR
UPDATE query: sorted({item.variant_id for item in order.items}). -/
def sweep_lock_sequence (items : List OrderItem) : List Nat :=
  List.insertionSort (· ≤ ·) ((items.map (fun it => it.variant_id)).dedup)

/-- The per-id lock loop of create_order: each requested variant is
queried FOR UPDATE and must exist (404 otherwise). -/
def lockVariantsLoop (db : DB) : List Nat → Except ApiError Unit
  | [] => .ok ()
  | vid :: rest =>
    match findVariant? db.variants vid with
    | none => .error (.variantNotFound vid)
    | some _ => lockVariantsLoop db rest

/-- Name used in the InsufficientStock message (variant.product.name). -/
def productNameOfVariant (db : DB) (v : ProductVariant) : String :=
  match findProduct? db.products v.product_id with
  | some p => p.name
  | none => ""

/-- Stock validation loop of create_order over the collapsed
(variant_id, requested_qty) pairs.  The locked_variants dict is keyed on
exactly these ids, so the lookup is against the variant table. -/
def checkRequestedStock (db : DB) : List (Nat × Nat) → Except ApiError Unit
  | [] => .ok ()
  | (vid, qty) :: rest =>
    match findVariant? db.variants vid with
    | none => .error .internalError
    | some v =>
      if v.stock_quantity < (qty : Int) then
        .error (.insufficientStock (productNameOfVariant db v))
      else checkRequestedStock db rest

/-- Line-item snapshot built in the create_order cart loop, before ids
are assigned by the flush. -/
structure PendingItem where
  product_id : Nat
  variant_id : Nat
  product_name : String
  variant_details : String
  quantity : Nat
  unit_price : Rat
  total_price : Rat
deriving DecidableEq, Repr

/-- Denormalized variant description captured at order time. -/
def variantDetailsString (v : ProductVariant) : String :=
  match v.color with
  | some c => "Size: " ++ v.size ++ ", Color: " ++ c
  | none => "Size: " ++ v.size

/-- Cart loop of create_order: computes each unit price as
(sale_price or base_price) + variant.additional_price and accumulates the
subtotal.  A dangling product or variant reference would raise and roll
the transaction back. -/
def buildOrderItems (db : DB) : List CartItem → Except ApiError (List PendingItem × Rat)
  | [] => .ok ([], 0)
  | c :: rest =>
    match findVariant? db.variants c.variant_id, findProduct? db.products c.product_id with
    | some v, some prod =>
      let unit_price :=
        (match prod.sale_price with
         | some sp => sp
         | none => prod.base_price) + v.additional_price
      let total_price := unit_price * (c.quantity : Rat)
      (match buildOrderItems db rest with
       | .ok (items, subRest) =>
         .ok (⟨c.product_id, c.variant_id, prod.name, variantDetailsString v,
               c.quantity, unit_price, total_price⟩ :: items, total_price + subRest)
       | .error e => .error e)
    | _, _ => .error .internalError

/-- Bounded-retry unique order-number generation; candidates is the
stream of random draws, of which at most max_attempts = 10 are tried.
Exhaustion maps the ValueError to the surfaced HTTP 500. -/
def generate_order_number (db : DB) (candidates : List String) : Except ApiError String :=
  match (candidates.take 10).find?
      (fun n => !(db.orders.any (fun o => o.order_number == n))) with
  | some n => .ok n
  | none => .error .orderNumberExhausted

/-- OrderItem rows persisted after the flush assigns the order id. -/
def buildItemRows (startId : Nat) (oid : Nat) : List PendingItem → List OrderItem
  | [] => []
  | p :: rest =>
    { id := startId, order_id := oid, product_id := p.product_id,
      variant_id := p.variant_id, product_name := p.product_name,
      variant_details := p.variant_details, quantity := p.quantity,
      unit_price := p.unit_price, total_price := p.total_price }
      :: buildItemRows (startId + 1) oid rest

/-- create_cod_payment (app/services/payment_service.py): records a
pending COD payment and confirms the order; it must not touch inventory. -/
def create_cod_payment (order : Order) (db : DB) : DB :=
  { db with
      payments := db.payments ++
        [{ id := db.next_payment_id, order_id := order.id,
           payment_method := .cod, payment_status := .pending,
           amount := order.total_amount, razorpay_order_id := none,
           razorpay_payment_id := none, razorpay_signature := none,
           paid_at := none }],
      next_payment_id := db.next_payment_id + 1,
      orders := updateOrderIn db.orders order.id
        (fun o => { o with status := .confirmed }) }

/-- create_order (app/api/v1/orders.py).  HTTPException paths roll the
transaction back, hence return the input database. -/
def create_order (u : Nat) (data : OrderCreateData) (candidates : List String)
    (now : Int) (db : DB) : Except ApiError CreateReply × DB :=
  match db.orders.find?
      (fun o => o.user_id == u && o.idempotency_key == data.idempotency_key) with
  | some existing =>
      (.ok ⟨existing.id, existing.order_number, existing.status⟩, db)
  | none =>
    let cart := db.cart_items.filter (fun c => c.user_id == u)
    if cart.isEmpty then (.error .emptyCart, db) else
    let shipping := db.addresses.find?
      (fun a => a.id == data.shipping_address_id && a.user_id == u)
    let billing := db.addresses.find?
      (fun a => a.id == data.billing_address_id && a.user_id == u)
    if shipping.isNone || billing.isNone then (.error .addressNotFound, db) else
    let requested := collapseQuantities cart
    match lockVariantsLoop db (create_order_lock_sequence cart) with
    | .error e => (.error e, db)
    | .ok _ =>
    match checkRequestedStock db requested with
    | .error e => (.error e, db)
    | .ok _ =>
    let db1 := { db with variants := deductQuantities db.variants requested }
    match buildOrderItems db1 cart with
    | .error e => (.error e, db)
    | .ok (pitems, subtotal) =>
    let tax_amount := subtotal * GST_RATE
    let shipping_charge : Rat :=
      if subtotal > FREE_SHIPPING_THRESHOLD then 0 else DEFAULT_SHIPPING_CHARGE
    let total_amount := subtotal + tax_amount + shipping_charge
    match generate_order_number db candidates with
    | .error e => (.error e, db)
    | .ok order_number =>
    let order : Order :=
      { id := db1.next_order_id, order_number := order_number, user_id := u,
        subtotal := subtotal, tax_amount := tax_amount,
        shipping_charge := shipping_charge, total_amount := total_amount,
        status := .pending, expires_at := some (now + 30),
        stock_deducted := true, idempotency_key := data.idempotency_key,
        shipping_address_id := data.shipping_address_id,
        billing_address_id := data.billing_address_id,
        customer_notes := data.customer_notes, created_at := now }
    let newItems := buildItemRows db1.next_order_item_id order.id pitems
    let db2 := { db1 with
      orders := db1.orders ++ [order],
      order_items := db1.order_items ++ newItems,
      next_order_id := db1.next_order_id + 1,
      next_order_item_id := db1.next_order_item_id + newItems.length,
      cart_items := db1.cart_items.filter (fun c => !(c.user_id == u)) }
    if data.payment_method = "cod" then
      (.ok ⟨order.id, order.order_number, .confirmed⟩, create_cod_payment order db2)
    else
      (.ok ⟨order.id, order.order_number, order.status⟩, db2)

/-! ### verify_payment (app/api/v1/payments.py) -/

structure VerifyReply where
  order_number : String
  payment_status : PaymentStatus
  order_status : OrderStatus
deriving DecidableEq, Repr

/-- Per-item re-validation loop of the delayed-reservation branch:
variant = locked_variants.get(item.variant_id); a missing variant or a
short stock both surface as InsufficientStock. -/
def checkItemsStock (locked : List ProductVariant) : List OrderItem → Except ApiError Unit
  | [] => .ok ()
  | it :: rest =>
    match findVariant? locked it.variant_id with
    | none => .error (.insufficientStock it.product_name)
    | some v =>
      if v.stock_quantity < (it.quantity : Int) then
        .error (.insufficientStock it.product_name)
      else checkItemsStock locked rest

/-- verify_payment (app/api/v1/payments.py).  The HMAC primitive and the
shared secret are explicit parameters; generated_signature is
hmacHex secret (oid ++ "|" ++ pid).  The signature-mismatch branch
commits the failed payment and pending order before raising, so it
returns a mutated database; every other error path rolls back. -/
def verify_payment (hmacHex : String → String → String) (secret : String)
    (oid pid sig : String) (u : Nat) (now : Int) (db : DB) :
    Except ApiError VerifyReply × DB :=
  if oid = "" ∨ pid = "" ∨ sig = "" then (.error .paymentCancelled, db) else
  match db.payments.find? (fun p => p.razorpay_order_id == some oid) with
  | none => (.error .paymentNotFound, db)
  | some payment =>
    match findOrder? db.orders payment.order_id with
    | none => (.error .internalError, db)
    | some order =>
      if order.user_id ≠ u then (.error .forbidden, db) else
      if hmacHex secret (oid ++ "|" ++ pid) ≠ sig then
        (.error .invalidSignature,
         { db with
             payments := updatePaymentIn db.payments payment.id
               (fun p => { p with payment_status := .failed }),
             orders := updateOrderIn db.orders order.id
               (fun o => { o with status := .pending }) })
      else if payment.payment_status = .success then (.error .alreadyProcessed, db)
      else if payment.payment_status = .failed then (.error .paymentFailedRetry, db)
      else
        let items := itemsOf db order.id
        let locked := db.variants.filter
          (fun v => (verify_payment_lock_sequence items).contains v.id)
        match (if order.stock_deducted then .ok ()
               else checkItemsStock locked items) with
        | .error e => (.error e, db)
        | .ok _ =>
          (.ok ⟨order.order_number, .success, .confirmed⟩,
           { db with
               variants :=
                 if order.stock_deducted then db.variants
                 else deductQuantities db.variants (itemQuantities items),
               payments := updatePaymentIn db.payments payment.id
                 (fun p => { p with razorpay_payment_id := some pid,
                                    razorpay_signature := some sig,
                                    payment_status := .success,
                                    paid_at := some now }),
               orders := updateOrderIn db.orders order.id
                 (fun o => { o with status := .confirmed, expires_at := none,
                                    stock_deducted := true }) })

/-! ### razorpay_webhook (app/api/v1/payments.py) -/

/-- The fields of the webhook body the handler reads. -/
structure WebhookEvent where
  event : String
  entity_payment_id : String
  entity_order_id : String
deriving DecidableEq, Repr

/-- The acknowledgement body: {"status": "duplicate"} vs {"status": "ok"}. -/
inductive WebhookReply where
  | processed
  | duplicate
deriving DecidableEq, Repr

/-- razorpay_webhook (app/api/v1/payments.py).  The transport-level
signature check against the separate webhook secret is an external call;
its boolean outcome is the sigValid parameter. -/
def razorpay_webhook (sigValid : Bool) (ev : WebhookEvent) (now : Int) (db : DB) :
    Except ApiError WebhookReply × DB :=
  if !sigValid then (.error .invalidWebhookSignature, db) else
  if ev.event = "payment.captured" then
    match db.payments.find?
        (fun p => p.razorpay_order_id == some ev.entity_order_id) with
    | none => (.ok .processed, db)
    | some payment =>
      if payment.payment_status = .success then (.ok .duplicate, db) else
      match findOrder? db.orders payment.order_id with
      | none => (.error .internalError, db)
      | some order =>
        let items := itemsOf db order.id
        let locked := db.variants.filter
          (fun v => (webhook_lock_sequence items).contains v.id)
        match (if order.stock_deducted then .ok ()
               else checkItemsStock locked items) with
        | .error e => (.error e, db)
        | .ok _ =>
          (.ok .processed,
           { db with
               variants :=
                 if order.stock_deducted then db.variants
                 else deductQuantities db.variants (itemQuantities items),
               payments := updatePaymentIn db.payments payment.id
                 (fun p => { p with razorpay_payment_id := some ev.entity_payment_id,
                                    payment_status := .success,
                                    paid_at := some now }),
               orders := updateOrderIn db.orders order.id
                 (fun o => { o with status := .confirmed, expires_at := none,
                                    stock_deducted := true }) })
  else if ev.event = "payment.failed" then
    match db.payments.find?
        (fun p => p.razorpay_order_id == some ev.entity_order_id) with
    | none => (.ok .processed, db)
    | some payment =>
      match findOrder? db.orders payment.order_id with
      | none => (.error .internalError, db)
      | some order =>
        (.ok .processed,
         { db with
             payments := updatePaymentIn db.payments payment.id
               (fun p => { p with payment_status := .failed }),
             orders := updateOrderIn db.orders order.id
               (fun o => { o with status := .pending }) })
  else (.ok .processed, db)

/-! ### cancel_order (app/api/v1/orders.py) -/

/-- cancel_order (app/api/v1/orders.py).  Restoration walks order.items
and dereferences item.variant directly; a dangling variant reference
raises before the commit, so that path rolls back whole. -/
def cancel_order (order_id : Nat) (u : Nat) (db : DB) : Except ApiError Unit × DB :=
  match db.orders.find? (fun o => o.id == order_id && o.user_id == u) with
  | none => (.error .orderNotFound, db)
  | some order =>
    if order.status = .shipped ∨ order.status = .delivered then
      (.error .cannotCancelShipped, db)
    else
      if order.stock_deducted &&
          (order.status == OrderStatus.pending ||
           order.status == OrderStatus.confirmed ||
           order.status == OrderStatus.processing) then
        let items := itemsOf db order.id
        if items.all (fun it => (findVariant? db.variants it.variant_id).isSome) then
          (.ok (),
           { db with
               variants := restoreQuantities db.variants (itemQuantities items),
               orders := updateOrderIn db.orders order.id
                 (fun o => { o with status := .cancelled, stock_deducted := false,
                                    expires_at := none }) })
        else (.error .internalError, db)
      else
        (.ok (),
         { db with orders := updateOrderIn db.orders order.id
                      (fun o => { o with status := .cancelled, expires_at := none }) })

/-! ### auto_cancel_pending_orders (app/services/order_service.py) -/

/-- Expiry test of the sweep: expires_at has passed, or, without an
explicit expiry, creation predates the 30-minute fallback cutoff. -/
def expiredAt (now : Int) (o : Order) : Bool :=
  match o.expires_at with
  | some t => t ≤ now
  | none => o.created_at < now - 30

/-- Restore loop of the sweep over the locked_variants dict; an id absent
from the dict is skipped (the `if variant:` guard), and updateVariant of
an absent id is the identity, so this equals restoreQuantities whenever
every item id is in the lock sequence. -/
def restoreItemsLocked (locked : List ProductVariant) (vs : List ProductVariant)
    (items : List OrderItem) : List ProductVariant :=
  items.foldl
    (fun acc it =>
      if locked.any (fun v => v.id == it.variant_id) then
        updateVariant acc it.variant_id (addStock it.quantity)
      else acc) vs

/-- Body of one iteration of the sweep over a snapshot pending order. -/
def sweepOne (now : Int) (db : DB) (oid : Nat) : Bool × DB :=
  match findOrder? db.orders oid with
  | none => (false, db)
  | some order =>
    if !(expiredAt now order) then (false, db)
    else
      let db1 :=
        if order.stock_deducted then
          let items := itemsOf db order.id
          let locked := db.variants.filter
            (fun v => (sweep_lock_sequence items).contains v.id)
          { db with
              variants := restoreItemsLocked locked db.variants items,
              orders := updateOrderIn db.orders order.id
                (fun o => { o with stock_deducted := false }) }
        else db
      (true,
       { db1 with orders := updateOrderIn db1.orders oid
                    (fun o => { o with status := .cancelled, expires_at := none }) })

/-- Accumulation of the sweep loop: threading the cancelled count and the
session state through one order. -/
def sweepStep (now : Int) (acc : Nat × DB) (oid : Nat) : Nat × DB :=
  let r := sweepOne now acc.2 oid
  (acc.1 + (if r.1 then 1 else 0), r.2)

/-- auto_cancel_pending_orders (app/services/order_service.py): sweeps
the snapshot of pending orders, cancelling each expired one and
restoring its reserved stock exactly when stock_deducted is set. -/
def auto_cancel_pending_orders (now : Int) (db : DB) : Nat × DB :=
  ((db.orders.filter (fun o => o.status == OrderStatus.pending)).map (fun o => o.id)).foldl
    (sweepStep now) (0, db)

/-! ### The core operations as one step relation -/

/-- One invocation of a core operation, with all external inputs. -/
inductive CoreOp where
  | createOrder (u : Nat) (data : OrderCreateData) (candidates : List String) (now : Int)
  | verifyPayment (hmacHex : String → String → String) (secret oid pid sig : String)
      (u : Nat) (now : Int)
  | webhook (sigValid : Bool) (ev : WebhookEvent) (now : Int)
  | cancelOrder (oid u : Nat)
  | sweep (now : Int)

/-- The database after one core operation (committed state, whether the
call succeeded or surfaced an error). -/
def applyOp (op : CoreOp) (db : DB) : DB :=
  match op with
  | .createOrder u data candidates now => (create_order u data candidates now db).2
  | .verifyPayment hmacHex secret oid pid sig u now =>
      (verify_payment hmacHex secret oid pid sig u now db).2
  | .webhook sigValid ev now => (razorpay_webhook sigValid ev now db).2
  | .cancelOrder oid u => (cancel_order oid u db).2
  | .sweep now => (auto_cancel_pending_orders now db).2

/-- Reachability by any finite sequence of core operations. -/
inductive Reachable (start : DB) : DB → Prop where
  | refl : Reachable start start
  | step {db : DB} (op : CoreOp) : Reachable start db → Reachable start (applyOp op db)

/-! ### Generic lemmas about the row helpers -/

theorem find?_map_of_pred {α : Type} (f : α → α) (p : α → Bool)
    (hp : ∀ x, p (f x) = p x) (l : List α) :
    (l.map f).find? p = (l.find? p).map f := by
  induction l with
  | nil => rfl
  | cons a l ih =>
    by_cases h : p a = true
    · rw [List.map_cons, List.find?_cons_of_pos _ (by rw [hp]; exact h),
        List.find?_cons_of_pos _ h, Option.map_some']
    · rw [List.map_cons, List.find?_cons_of_neg _ (by rw [hp]; exact h),
        List.find?_cons_of_neg _ h, ih]

/-- A find? by key over a key-unique list locates any member. -/
theorem find?_key_of_nodup {α : Type} (key : α → Nat) (l : List α)
    (h : (l.map key).Nodup) (x : α) (hx : x ∈ l) :
    l.find? (fun y => key y == key x) = some x := by
  induction l with
  | nil => cases hx
  | cons a l ih =>
    rw [List.map_cons, List.nodup_cons] at h
    rcases List.mem_cons.mp hx with rfl | hx'
    · exact List.find?_cons_of_pos _ (by simp)
    · have hne : key a ≠ key x := by
        intro he
        exact h.1 (he ▸ List.mem_map_of_mem key hx')
      rw [List.find?_cons_of_neg _ (by simpa using hne)]
      exact ih h.2 hx'

theorem updateVariant_map_id (vs : List ProductVariant) (vid : Nat)
    (f : ProductVariant → ProductVariant) (hf : ∀ v, (f v).id = v.id) :
    (updateVariant vs vid f).map (fun v => v.id) = vs.map (fun v => v.id) := by
  unfold updateVariant
  rw [List.map_map]
  refine List.map_congr_left ?_
  intro v _
  by_cases h : v.id = vid <;> simp [h, hf]

theorem subStock_id (q : Nat) (v : ProductVariant) : (subStock q v).id = v.id := rfl

theorem addStock_id (q : Nat) (v : ProductVariant) : (addStock q v).id = v.id := rfl

theorem deductQuantities_cons (vs : List ProductVariant) (p : Nat × Nat)
    (qs : List (Nat × Nat)) :
    deductQuantities vs (p :: qs) =
      deductQuantities (updateVariant vs p.1 (subStock p.2)) qs := rfl

theorem restoreQuantities_cons (vs : List ProductVariant) (p : Nat × Nat)
    (qs : List (Nat × Nat)) :
    restoreQuantities vs (p :: qs) =
      restoreQuantities (updateVariant vs p.1 (addStock p.2)) qs := rfl

theorem deductQuantities_map_id (qs : List (Nat × Nat)) (vs : List ProductVariant) :
    (deductQuantities vs qs).map (fun v => v.id) = vs.map (fun v => v.id) := by
  induction qs generalizing vs with
  | nil => rfl
  | cons p qs ih =>
    rw [deductQuantities_cons, ih, updateVariant_map_id _ _ _ (subStock_id p.2)]

theorem restoreQuantities_map_id (qs : List (Nat × Nat)) (vs : List ProductVariant) :
    (restoreQuantities vs qs).map (fun v => v.id) = vs.map (fun v => v.id) := by
  induction qs generalizing vs with
  | nil => rfl
  | cons p qs ih =>
    rw [restoreQuantities_cons, ih, updateVariant_map_id _ _ _ (addStock_id p.2)]

/-- Stock of the variant with the given id within a variant table. -/
def lookupStock (vs : List ProductVariant) (vid : Nat) : Option Int :=
  (findVariant? vs vid).map (fun v => v.stock_quantity)

theorem lookupStock_update_sub (vs : List ProductVariant) (k vid : Nat) (q : Nat) :
    lookupStock (updateVariant vs k (subStock q)) vid =
      if vid = k then (lookupStock vs vid).map (fun s => s - (q : Int))
      else lookupStock vs vid := by
  have hpred : ∀ v : ProductVariant,
      (((if v.id = k then subStock q v else v).id == vid)) = ((v.id == vid)) := by
    intro v; by_cases h : v.id = k <;> simp [h, subStock]
  unfold lookupStock findVariant? updateVariant
  rw [find?_map_of_pred _ _ hpred]
  cases hfind : vs.find? (fun v => v.id == vid) with
  | none => simp
  | some v =>
    have hv : v.id = vid := by simpa using List.find?_some hfind
    by_cases h : vid = k
    · simp [Option.map_some', hv, h, subStock]
    · simp [Option.map_some', hv, h, subStock]

theorem lookupStock_update_add (vs : List ProductVariant) (k vid : Nat) (q : Nat) :
    lookupStock (updateVariant vs k (addStock q)) vid =
      if vid = k then (lookupStock vs vid).map (fun s => s + (q : Int))
      else lookupStock vs vid := by
  have hpred : ∀ v : ProductVariant,
      (((if v.id = k then addStock q v else v).id == vid)) = ((v.id == vid)) := by
    intro v; by_cases h : v.id = k <;> simp [h, addStock]
  unfold lookupStock findVariant? updateVariant
  rw [find?_map_of_pred _ _ hpred]
  cases hfind : vs.find? (fun v => v.id == vid) with
  | none => simp
  | some v =>
    have hv : v.id = vid := by simpa using List.find?_some hfind
    by_cases h : vid = k
    · simp [Option.map_some', hv, h, addStock]
    · simp [Option.map_some', hv, h, addStock]

theorem lookupStock_deduct_not_mem (qs : List (Nat × Nat)) (vs : List ProductVariant)
    (vid : Nat) (h : vid ∉ qs.map Prod.fst) :
    lookupStock (deductQuantities vs qs) vid = lookupStock vs vid := by
  induction qs generalizing vs with
  | nil => rfl
  | cons p qs ih =>
    rw [List.map_cons, List.mem_cons] at h
    push_neg at h
    rw [deductQuantities_cons, ih _ h.2, lookupStock_update_sub]
    simp [h.1]

theorem lookupStock_restore_not_mem (qs : List (Nat × Nat)) (vs : List ProductVariant)
    (vid : Nat) (h : vid ∉ qs.map Prod.fst) :
    lookupStock (restoreQuantities vs qs) vid = lookupStock vs vid := by
  induction qs generalizing vs with
  | nil => rfl
  | cons p qs ih =>
    rw [List.map_cons, List.mem_cons] at h
    push_neg at h
    rw [restoreQuantities_cons, ih _ h.2, lookupStock_update_add]
    simp [h.1]

theorem lookupStock_deduct_mem (qs : List (Nat × Nat)) (vs : List ProductVariant)
    (vid q : Nat) (hnd : (qs.map Prod.fst).Nodup) (hmem : (vid, q) ∈ qs) :
    lookupStock (deductQuantities vs qs) vid =
      (lookupStock vs vid).map (fun s => s - (q : Int)) := by
  induction qs generalizing vs with
  | nil => cases hmem
  | cons p qs ih =>
    rw [List.map_cons, List.nodup_cons] at hnd
    rw [deductQuantities_cons]
    rcases List.mem_cons.mp hmem with he | hmem'
    · have hp1 : p.1 = vid := by rw [← he]
      have hnot : vid ∉ qs.map Prod.fst := hp1 ▸ hnd.1
      rw [lookupStock_deduct_not_mem _ _ _ hnot, lookupStock_update_sub, hp1]
      have hq : p.2 = q := by rw [← he]
      simp [hq]
    · have hvid_ne : vid ≠ p.1 := by
        intro he
        exact hnd.1 (he ▸ List.mem_map_of_mem Prod.fst hmem')
      rw [ih _ hnd.2 hmem', lookupStock_update_sub]
      simp [hvid_ne]

theorem lookupStock_restore_mem (qs : List (Nat × Nat)) (vs : List ProductVariant)
    (vid q : Nat) (hnd : (qs.map Prod.fst).Nodup) (hmem : (vid, q) ∈ qs) :
    lookupStock (restoreQuantities vs qs) vid =
      (lookupStock vs vid).map (fun s => s + (q : Int)) := by
  induction qs generalizing vs with
  | nil => cases hmem
  | cons p qs ih =>
    rw [List.map_cons, List.nodup_cons] at hnd
    rw [restoreQuantities_cons]
    rcases List.mem_cons.mp hmem with he | hmem'
    · have hp1 : p.1 = vid := by rw [← he]
      have hnot : vid ∉ qs.map Prod.fst := hp1 ▸ hnd.1
      rw [lookupStock_restore_not_mem _ _ _ hnot, lookupStock_update_add, hp1]
      have hq : p.2 = q := by rw [← he]
      simp [hq]
    · have hvid_ne : vid ≠ p.1 := by
        intro he
        exact hnd.1 (he ▸ List.mem_map_of_mem Prod.fst hmem')
      rw [ih _ hnd.2 hmem', lookupStock_update_add]
      simp [hvid_ne]

/-! ### Lock sequences and the locked-variant dict -/

theorem mem_sorted_dedup (x : Nat) (l : List Nat) (hx : x ∈ l) :
    x ∈ List.insertionSort (· ≤ ·) l.dedup :=
  ((List.perm_insertionSort (· ≤ ·) l.dedup).mem_iff).mpr (List.mem_dedup.mpr hx)

theorem mem_verify_lock_sequence {it : OrderItem} {items : List OrderItem}
    (h : it ∈ items) : it.variant_id ∈ verify_payment_lock_sequence items :=
  mem_sorted_dedup _ _ (List.mem_map_of_mem _ h)

theorem mem_webhook_lock_sequence {it : OrderItem} {items : List OrderItem}
    (h : it ∈ items) : it.variant_id ∈ webhook_lock_sequence items :=
  mem_sorted_dedup _ _ (List.mem_map_of_mem _ h)

theorem mem_sweep_lock_sequence {it : OrderItem} {items : List OrderItem}
    (h : it ∈ items) : it.variant_id ∈ sweep_lock_sequence items :=
  mem_sorted_dedup _ _ (List.mem_map_of_mem _ h)

/-- Looking a variant up in the locked dict agrees with the variant table
whenever the id is part of the lock sequence. -/
theorem findVariant?_filter_contains (vs : List ProductVariant) (ids : List Nat)
    (vid : Nat) (hvid : vid ∈ ids) :
    findVariant? (vs.filter (fun v => ids.contains v.id)) vid = findVariant? vs vid := by
  induction vs with
  | nil => rfl
  | cons v vs ih =>
    unfold findVariant? at *
    rw [List.filter_cons]
    by_cases hc : (ids.contains v.id) = true
    · rw [if_pos (by simpa using hc)]
      by_cases hid : v.id = vid
      · rw [List.find?_cons_of_pos _ (by simp [hid]),
          List.find?_cons_of_pos _ (by simp [hid])]
      · rw [List.find?_cons_of_neg _ (by simp [hid]),
          List.find?_cons_of_neg _ (by simp [hid])]
        exact ih
    · have hid : v.id ≠ vid := by
        intro he
        exact hc (by rw [he]; exact List.elem_iff.mpr hvid)
      rw [if_neg (by simpa using hc), List.find?_cons_of_neg _ (by simp [hid])]
      exact ih

/-! ### Characterizations of the stock-validation loops -/

theorem checkRequestedStock_ok (db : DB) (qs : List (Nat × Nat))
    (h : checkRequestedStock db qs = .ok ()) :
    ∀ p ∈ qs, ∃ v, findVariant? db.variants p.1 = some v ∧
      (p.2 : Int) ≤ v.stock_quantity := by
  induction qs with
  | nil => intro p hp; cases hp
  | cons q qs ih =>
    intro p hp
    obtain ⟨vid, qty⟩ := q
    unfold checkRequestedStock at h
    cases hf : findVariant? db.variants vid with
    | none => rw [hf] at h; cases h
    | some v =>
      rw [hf] at h
      by_cases hlt : v.stock_quantity < (qty : Int)
      · simp [hlt] at h
      · simp only [if_neg hlt] at h
        rcases List.mem_cons.mp hp with rfl | hp'
        · exact ⟨v, hf, not_lt.mp hlt⟩
        · exact ih h p hp'

theorem checkItemsStock_ok (locked : List ProductVariant) (items : List OrderItem)
    (h : checkItemsStock locked items = .ok ()) :
    ∀ it ∈ items, ∃ v, findVariant? locked it.variant_id = some v ∧
      (it.quantity : Int) ≤ v.stock_quantity := by
  induction items with
  | nil => intro it hit; cases hit
  | cons a items ih =>
    intro it hit
    unfold checkItemsStock at h
    cases hf : findVariant? locked a.variant_id with
    | none => rw [hf] at h; cases h
    | some v =>
      rw [hf] at h
      by_cases hlt : v.stock_quantity < (a.quantity : Int)
      · simp [hlt] at h
      · simp only [if_neg hlt] at h
        rcases List.mem_cons.mp hit with rfl | hit'
        · exact ⟨v, hf, not_lt.mp hlt⟩
        · exact ih h it hit'

/-! ### Keys of the collapsed quantity dict -/

theorem addQuantity_keys (acc : List (Nat × Nat)) (vid qty : Nat) :
    (addQuantity acc vid qty).map Prod.fst =
      if vid ∈ acc.map Prod.fst then acc.map Prod.fst
      else acc.map Prod.fst ++ [vid] := by
  unfold addQuantity
  by_cases h : acc.any (fun p => p.1 == vid)
  · rw [if_pos h]
    have hm : vid ∈ acc.map Prod.fst := by
      rcases List.any_eq_true.mp h with ⟨p, hp, he⟩
      have he' : p.1 = vid := by simpa using he
      exact he' ▸ List.mem_map_of_mem Prod.fst hp
    rw [if_pos hm, List.map_map]
    refine List.map_congr_left ?_
    intro p _
    by_cases hp : p.1 = vid <;> simp [hp]
  · rw [if_neg h]
    have hm : vid ∉ acc.map Prod.fst := by
      intro hmem
      rcases List.mem_map.mp hmem with ⟨p, hp, he⟩
      exact h (List.any_eq_true.mpr ⟨p, hp, by simp [he]⟩)
    rw [if_neg hm, List.map_append]
    rfl

theorem addQuantity_keys_nodup (acc : List (Nat × Nat)) (vid qty : Nat)
    (h : (acc.map Prod.fst).Nodup) : ((addQuantity acc vid qty).map Prod.fst).Nodup := by
  rw [addQuantity_keys]
  by_cases hm : vid ∈ acc.map Prod.fst
  · rwa [if_pos hm]
  · rw [if_neg hm]
    refine List.Nodup.append h (List.nodup_singleton vid) ?_
    intro a ha hb
    rw [List.mem_singleton] at hb
    exact hm (hb ▸ ha)

theorem collapse_go_keys_nodup (cart : List CartItem) (acc : List (Nat × Nat))
    (h : (acc.map Prod.fst).Nodup) :
    ((cart.foldl (fun acc c => addQuantity acc c.variant_id c.quantity) acc).map
      Prod.fst).Nodup := by
  induction cart generalizing acc with
  | nil => exact h
  | cons c cart ih =>
    exact ih _ (addQuantity_keys_nodup _ _ _ h)

theorem collapseQuantities_keys_nodup (cart : List CartItem) :
    ((collapseQuantities cart).map Prod.fst).Nodup :=
  collapse_go_keys_nodup cart [] (by simp)

/-! ### Nonnegative-stock preservation lemmas -/

theorem nonneg_updateVariant (vs : List ProductVariant) (k : Nat)
    (f : ProductVariant → ProductVariant)
    (hf : ∀ v, 0 ≤ v.stock_quantity → 0 ≤ (f v).stock_quantity)
    (h : ∀ v ∈ vs, 0 ≤ v.stock_quantity) :
    ∀ v ∈ updateVariant vs k f, 0 ≤ v.stock_quantity := by
  intro v hv
  rcases List.mem_map.mp hv with ⟨w, hw, rfl⟩
  by_cases hid : w.id = k
  · simpa [hid] using hf w (h w hw)
  · simpa [hid] using h w hw

theorem nonneg_restoreQuantities (qs : List (Nat × Nat)) (vs : List ProductVariant)
    (h : ∀ v ∈ vs, 0 ≤ v.stock_quantity) :
    ∀ v ∈ restoreQuantities vs qs, 0 ≤ v.stock_quantity := by
  induction qs generalizing vs with
  | nil => exact h
  | cons p qs ih =>
    rw [restoreQuantities_cons]
    refine ih _ (nonneg_updateVariant _ _ _ ?_ h)
    intro v hv
    have : (0 : Int) ≤ (p.2 : Int) := Int.natCast_nonneg p.2
    simp only [addStock]
    omega

theorem nonneg_restoreItemsLocked (items : List OrderItem)
    (locked vs : List ProductVariant)
    (h : ∀ v ∈ vs, 0 ≤ v.stock_quantity) :
    ∀ v ∈ restoreItemsLocked locked vs items, 0 ≤ v.stock_quantity := by
  induction items generalizing vs with
  | nil => exact h
  | cons it items ih =>
    unfold restoreItemsLocked
    rw [List.foldl_cons]
    by_cases hc : locked.any (fun v => v.id == it.variant_id)
    · rw [if_pos hc]
      refine ih _ (nonneg_updateVariant _ _ _ ?_ h)
      intro v hv
      have : (0 : Int) ≤ (it.quantity : Int) := Int.natCast_nonneg it.quantity
      simp only [addStock]
      omega
    · rw [if_neg hc]
      exact ih _ h

/-- The central deduction-safety lemma: a key-unique batch of deductions,
each validated against the pre-deduction stock of a key-unique variant
table, keeps every stock nonnegative. -/
theorem nonneg_deductQuantities (qs : List (Nat × Nat)) (vs : List ProductVariant)
    (hids : (vs.map (fun v => v.id)).Nodup)
    (hkeys : (qs.map Prod.fst).Nodup)
    (hcheck : ∀ p ∈ qs, ∀ v ∈ vs, v.id = p.1 → (p.2 : Int) ≤ v.stock_quantity)
    (h : ∀ v ∈ vs, 0 ≤ v.stock_quantity) :
    ∀ v ∈ deductQuantities vs qs, 0 ≤ v.stock_quantity := by
  intro v hv
  have hids' : ((deductQuantities vs qs).map (fun v => v.id)).Nodup := by
    rw [deductQuantities_map_id]; exact hids
  have hfind : (deductQuantities vs qs).find? (fun y => y.id == v.id) = some v :=
    find?_key_of_nodup (fun v => v.id) _ hids' v hv
  have hlook : lookupStock (deductQuantities vs qs) v.id = some v.stock_quantity := by
    unfold lookupStock findVariant?
    rw [hfind, Option.map_some']
  by_cases hm : v.id ∈ qs.map Prod.fst
  · rcases List.mem_map.mp hm with ⟨p, hp, hp1⟩
    have hp' : (v.id, p.2) ∈ qs := by
      have : p = (v.id, p.2) := by
        cases p; simp at hp1 ⊢; exact hp1
      exact this ▸ hp
    rw [lookupStock_deduct_mem qs vs v.id p.2 hkeys hp'] at hlook
    cases hw : lookupStock vs v.id with
    | none => rw [hw] at hlook; cases hlook
    | some s =>
      rw [hw, Option.map_some'] at hlook
      have hvs : v.stock_quantity = s - (p.2 : Int) := by
        injection hlook with h1; omega
      -- recover the witness variant in vs and its stock bound
      unfold lookupStock at hw
      cases hfw : findVariant? vs v.id with
      | none => rw [hfw] at hw; cases hw
      | some w =>
        rw [hfw, Option.map_some'] at hw
        have hws : w.stock_quantity = s := by injection hw
        have hwid : w.id = v.id := by
          have := List.find?_some hfw
          simpa using this
        have hwmem : w ∈ vs := List.mem_of_find?_eq_some hfw
        have := hcheck p hp w hwmem (by rw [hwid, hp1])
        omega
  · rw [lookupStock_deduct_not_mem qs vs v.id hm] at hlook
    unfold lookupStock at hlook
    cases hfw : findVariant? vs v.id with
    | none => rw [hfw] at hlook; cases hlook
    | some w =>
      rw [hfw, Option.map_some'] at hlook
      have hws : w.stock_quantity = v.stock_quantity := by injection hlook
      have hwmem : w ∈ vs := List.mem_of_find?_eq_some hfw
      have := h w hwmem
      omega

/-! ### Database well-formedness -/

/-- Well-formedness of a database state: nonnegative stocks, primary-key
uniqueness of the variant and order tables, primary keys below the
autoincrement counters, and per-order / per-cart variant uniqueness.  The
cart rows of one user have pairwise distinct variants because the cart
endpoint merges an added item into an existing row of the same variant,
and order items are created one per cart row. -/
structure WF (db : DB) : Prop where
  stocks_nonneg : ∀ v ∈ db.variants, 0 ≤ v.stock_quantity
  variant_ids_nodup : (db.variants.map (fun v => v.id)).Nodup
  order_ids_nodup : (db.orders.map (fun o => o.id)).Nodup
  order_ids_lt : ∀ o ∈ db.orders, o.id < db.next_order_id
  item_order_ids_lt : ∀ it ∈ db.order_items, it.order_id < db.next_order_id
  items_variant_nodup : ∀ oid : Nat,
    ((itemsOf db oid).map (fun it => it.variant_id)).Nodup
  cart_variant_nodup : ∀ w : Nat,
    ((db.cart_items.filter (fun c => c.user_id == w)).map (fun c => c.variant_id)).Nodup

theorem updateOrderIn_map_id (os : List Order) (oid : Nat) (f : Order → Order)
    (hf : ∀ o, (f o).id = o.id) :
    (updateOrderIn os oid f).map (fun o => o.id) = os.map (fun o => o.id) := by
  unfold updateOrderIn
  rw [List.map_map]
  refine List.map_congr_left ?_
  intro o _
  by_cases h : o.id = oid <;> simp [h, hf]

theorem restoreItemsLocked_map_id (items : List OrderItem)
    (locked vs : List ProductVariant) :
    (restoreItemsLocked locked vs items).map (fun v => v.id) =
      vs.map (fun v => v.id) := by
  induction items generalizing vs with
  | nil => rfl
  | cons it items ih =>
    unfold restoreItemsLocked
    rw [List.foldl_cons]
    by_cases hc : locked.any (fun v => v.id == it.variant_id)
    · rw [if_pos hc]
      have := ih (updateVariant vs it.variant_id (addStock it.quantity))
      unfold restoreItemsLocked at this
      rw [this, updateVariant_map_id _ _ _ (addStock_id it.quantity)]
    · rw [if_neg hc]
      have := ih vs
      unfold restoreItemsLocked at this
      rw [this]

/-- A state that only rewrites the variant table (id-preserving, stocks
kept nonnegative), rewrites orders in an id-preserving way, and replaces
payments, stays well-formed. -/
theorem WF_mk_of (db : DB) (h : WF db)
    (variants' : List ProductVariant)
    (hv_ids : variants'.map (fun v => v.id) = db.variants.map (fun v => v.id))
    (hv_nonneg : ∀ v ∈ variants', 0 ≤ v.stock_quantity)
    (orders' : List Order)
    (ho_ids : orders'.map (fun o => o.id) = db.orders.map (fun o => o.id))
    (payments' : List Payment) :
    WF { db with variants := variants', orders := orders', payments := payments' } := by
  constructor
  · exact hv_nonneg
  · show (variants'.map (fun v => v.id)).Nodup
    rw [hv_ids]; exact h.variant_ids_nodup
  · show (orders'.map (fun o => o.id)).Nodup
    rw [ho_ids]; exact h.order_ids_nodup
  · show ∀ o ∈ orders', o.id < db.next_order_id
    intro o ho
    have : o.id ∈ orders'.map (fun o => o.id) := List.mem_map_of_mem _ ho
    rw [ho_ids] at this
    rcases List.mem_map.mp this with ⟨o₀, ho₀, he⟩
    rw [← he]
    exact h.order_ids_lt o₀ ho₀
  · exact h.item_order_ids_lt
  · exact h.items_variant_nodup
  · exact h.cart_variant_nodup

/-- Transfer of the per-item stock validation (against the locked dict)
to an arbitrary member of a key-unique variant table. -/
theorem checkItems_bound (db : DB) (items : List OrderItem) (seqIds : List Nat)
    (hseq : ∀ it ∈ items, it.variant_id ∈ seqIds)
    (hok : checkItemsStock (db.variants.filter (fun v => seqIds.contains v.id)) items
      = .ok ())
    (hids : (db.variants.map (fun v => v.id)).Nodup) :
    ∀ p ∈ itemQuantities items, ∀ v ∈ db.variants, v.id = p.1 →
      (p.2 : Int) ≤ v.stock_quantity := by
  intro p hp v hv hvid
  rcases List.mem_map.mp hp with ⟨it, hit, he⟩
  obtain ⟨w, hw, hbound⟩ := checkItemsStock_ok _ _ hok it hit
  rw [findVariant?_filter_contains _ _ _ (hseq it hit)] at hw
  have hv' : findVariant? db.variants v.id = some v := by
    unfold findVariant?
    exact find?_key_of_nodup (fun v => v.id) _ hids v hv
  have hp1 : p.1 = it.variant_id := by rw [← he]
  have hp2 : p.2 = it.quantity := by rw [← he]
  rw [hvid, hp1, hw] at hv'
  have hvw : w = v := by injection hv'
  rw [hp2, ← hvw]
  exact hbound

/-- Transfer of the create_order stock validation (per collapsed pair) to
an arbitrary member of a key-unique variant table. -/
theorem checkRequested_bound (db : DB) (qs : List (Nat × Nat))
    (hok : checkRequestedStock db qs = .ok ())
    (hids : (db.variants.map (fun v => v.id)).Nodup) :
    ∀ p ∈ qs, ∀ v ∈ db.variants, v.id = p.1 → (p.2 : Int) ≤ v.stock_quantity := by
  intro p hp v hv hvid
  obtain ⟨w, hw, hbound⟩ := checkRequestedStock_ok db qs hok p hp
  have hv' : findVariant? db.variants v.id = some v := by
    unfold findVariant?
    exact find?_key_of_nodup (fun v => v.id) _ hids v hv
  rw [hvid, hw] at hv'
  have hvw : w = v := by injection hv'
  rw [← hvw]
  exact hbound

theorem itemQuantities_keys (items : List OrderItem) :
    (itemQuantities items).map Prod.fst = items.map (fun it => it.variant_id) := by
  unfold itemQuantities
  rw [List.map_map]
  rfl

/-! ### Well-formedness preservation of each core operation -/

theorem WF_verify_payment (hmacHex : String → String → String) (secret oid pid sig : String)
    (u : Nat) (now : Int) (db : DB) (h : WF db) :
    WF (verify_payment hmacHex secret oid pid sig u now db).2 := by
  unfold verify_payment
  split
  · exact h
  · split
    · exact h
    · rename_i payment hpay
      split
      · exact h
      · rename_i order hord
        split
        · exact h
        · split
          · exact WF_mk_of db h db.variants rfl h.stocks_nonneg
              (updateOrderIn db.orders order.id (fun o => { o with status := .pending }))
              (updateOrderIn_map_id _ _ _ (fun o => rfl)) _
          · split
            · exact h
            · split
              · exact h
              · split
                · -- stock_deducted = true: the variant table is unchanged
                  exact WF_mk_of db h db.variants rfl h.stocks_nonneg
                    (updateOrderIn db.orders order.id
                      (fun o => { o with status := .confirmed, expires_at := none,
                                         stock_deducted := true }))
                    (updateOrderIn_map_id _ _ _ (fun o => rfl)) _
                · -- stock_deducted = false: validated deduction branch
                  dsimp only
                  split
                  · exact h
                  · rename_i a hchk
                    refine WF_mk_of db h _ (deductQuantities_map_id _ _) ?_
                      (updateOrderIn db.orders order.id
                        (fun o => { o with status := .confirmed, expires_at := none,
                                           stock_deducted := true }))
                      (updateOrderIn_map_id _ _ _ (fun o => rfl)) _
                    refine nonneg_deductQuantities _ _ h.variant_ids_nodup ?_ ?_ h.stocks_nonneg
                    · rw [itemQuantities_keys]
                      exact h.items_variant_nodup order.id
                    · refine checkItems_bound db (itemsOf db order.id)
                        (verify_payment_lock_sequence (itemsOf db order.id))
                        (fun it hit => mem_verify_lock_sequence hit) ?_ h.variant_ids_nodup
                      cases a
                      exact hchk

theorem WF_razorpay_webhook (sigValid : Bool) (ev : WebhookEvent) (now : Int)
    (db : DB) (h : WF db) :
    WF (razorpay_webhook sigValid ev now db).2 := by
  unfold razorpay_webhook
  split
  · exact h
  · split
    · -- payment.captured
      split
      · exact h
      · rename_i payment hpay
        split
        · exact h
        · split
          · exact h
          · rename_i order hord
            split
            · -- stock_deducted = true
              exact WF_mk_of db h db.variants rfl h.stocks_nonneg
                (updateOrderIn db.orders order.id
                  (fun o => { o with status := .confirmed, expires_at := none,
                                     stock_deducted := true }))
                (updateOrderIn_map_id _ _ _ (fun o => rfl)) _
            · dsimp only
              split
              · exact h
              · rename_i a hchk
                refine WF_mk_of db h _ (deductQuantities_map_id _ _) ?_
                  (updateOrderIn db.orders order.id
                    (fun o => { o with status := .confirmed, expires_at := none,
                                       stock_deducted := true }))
                  (updateOrderIn_map_id _ _ _ (fun o => rfl)) _
                refine nonneg_deductQuantities _ _ h.variant_ids_nodup ?_ ?_ h.stocks_nonneg
                · rw [itemQuantities_keys]
                  exact h.items_variant_nodup order.id
                · refine checkItems_bound db (itemsOf db order.id)
                    (webhook_lock_sequence (itemsOf db order.id))
                    (fun it hit => mem_webhook_lock_sequence hit) ?_ h.variant_ids_nodup
                  cases a
                  exact hchk
    · split
      · -- payment.failed
        split
        · exact h
        · rename_i payment hpay
          split
          · exact h
          · rename_i order hord
            exact WF_mk_of db h db.variants rfl h.stocks_nonneg
              (updateOrderIn db.orders order.id (fun o => { o with status := .pending }))
              (updateOrderIn_map_id _ _ _ (fun o => rfl)) _
      · exact h

theorem WF_cancel_order (order_id u : Nat) (db : DB) (h : WF db) :
    WF (cancel_order order_id u db).2 := by
  unfold cancel_order
  split
  · exact h
  · rename_i order hord
    split
    · exact h
    · split
      · dsimp only
        split
        · refine WF_mk_of db h _ (restoreQuantities_map_id _ _)
            (nonneg_restoreQuantities _ _ h.stocks_nonneg)
            (updateOrderIn db.orders order.id
              (fun o => { o with status := .cancelled, stock_deducted := false,
                                 expires_at := none }))
            (updateOrderIn_map_id _ _ _ (fun o => rfl)) _
        · exact h
      · exact WF_mk_of db h db.variants rfl h.stocks_nonneg
          (updateOrderIn db.orders order.id
            (fun o => { o with status := .cancelled, expires_at := none }))
          (updateOrderIn_map_id _ _ _ (fun o => rfl)) _

theorem WF_sweepOne (now : Int) (db : DB) (oid : Nat) (h : WF db) :
    WF (sweepOne now db oid).2 := by
  unfold sweepOne
  split
  · exact h
  · rename_i order hord
    split
    · exact h
    · dsimp only
      split
      · -- stock_deducted: restore then cancel
        refine WF_mk_of db h _ (restoreItemsLocked_map_id _ _ _)
          (nonneg_restoreItemsLocked _ _ _ h.stocks_nonneg)
          (updateOrderIn
            (updateOrderIn db.orders order.id (fun o => { o with stock_deducted := false }))
            oid (fun o => { o with status := .cancelled, expires_at := none }))
          ?_ _
        rw [updateOrderIn_map_id _ oid
            (fun o => { o with status := .cancelled, expires_at := none }) (fun o => rfl),
          updateOrderIn_map_id _ order.id
            (fun o => { o with stock_deducted := false }) (fun o => rfl)]
      · exact WF_mk_of db h db.variants rfl h.stocks_nonneg
          (updateOrderIn db.orders oid
            (fun o => { o with status := .cancelled, expires_at := none }))
          (updateOrderIn_map_id _ _ _ (fun o => rfl)) _

theorem WF_sweep_fold (now : Int) (ids : List Nat) (acc : Nat × DB) (h : WF acc.2) :
    WF ((ids.foldl (sweepStep now) acc).2) := by
  induction ids generalizing acc with
  | nil => exact h
  | cons oid ids ih =>
    rw [List.foldl_cons]
    exact ih _ (WF_sweepOne now acc.2 oid h)

theorem WF_auto_cancel_pending_orders (now : Int) (db : DB) (h : WF db) :
    WF (auto_cancel_pending_orders now db).2 := by
  unfold auto_cancel_pending_orders
  exact WF_sweep_fold now _ (0, db) h

theorem buildItemRows_order_id (ps : List PendingItem) (s oid : Nat) :
    ∀ it ∈ buildItemRows s oid ps, it.order_id = oid := by
  induction ps generalizing s with
  | nil => intro it hit; cases hit
  | cons p ps ih =>
    intro it hit
    rcases List.mem_cons.mp hit with rfl | hit'
    · rfl
    · exact ih _ it hit'

theorem buildItemRows_variant_ids (ps : List PendingItem) (s oid : Nat) :
    (buildItemRows s oid ps).map (fun it => it.variant_id) =
      ps.map (fun p => p.variant_id) := by
  induction ps generalizing s with
  | nil => rfl
  | cons p ps ih =>
    unfold buildItemRows
    rw [List.map_cons, List.map_cons, ih]

theorem buildOrderItems_variant_ids (db : DB) (cart : List CartItem)
    (ps : List PendingItem) (s : Rat)
    (h : buildOrderItems db cart = .ok (ps, s)) :
    ps.map (fun p => p.variant_id) = cart.map (fun c => c.variant_id) := by
  induction cart generalizing ps s with
  | nil =>
    unfold buildOrderItems at h
    injection h with h'
    obtain ⟨h1, h2⟩ := Prod.mk.inj h'
    rw [← h1]
    rfl
  | cons c cart ih =>
    unfold buildOrderItems at h
    cases hv : findVariant? db.variants c.variant_id with
    | none => rw [hv] at h; cases h
    | some v =>
      cases hp : findProduct? db.products c.product_id with
      | none => rw [hv, hp] at h; cases h
      | some prod =>
        rw [hv, hp] at h
        cases hrec : buildOrderItems db cart with
        | error e => simp only [hrec] at h; cases h
        | ok pr =>
          obtain ⟨items, sub⟩ := pr
          simp only [hrec] at h
          injection h with h'
          obtain ⟨h1, h2⟩ := Prod.mk.inj h'
          rw [← h1, List.map_cons, List.map_cons, ih items sub hrec]

theorem order_ids_lt_updateOrderIn (os : List Order) (oid : Nat) (f : Order → Order)
    (hf : ∀ o, (f o).id = o.id) (n : Nat) (h : ∀ o ∈ os, o.id < n) :
    ∀ o ∈ updateOrderIn os oid f, o.id < n := by
  intro o ho
  rcases List.mem_map.mp ho with ⟨o₀, ho₀, rfl⟩
  by_cases he : o₀.id = oid
  · rw [if_pos he, hf]
    exact h o₀ ho₀
  · rw [if_neg he]
    exact h o₀ ho₀

theorem WF_create_cod_payment (order : Order) (db : DB) (h : WF db) :
    WF (create_cod_payment order db) := by
  unfold create_cod_payment
  constructor
  · exact h.stocks_nonneg
  · exact h.variant_ids_nodup
  · show ((updateOrderIn db.orders order.id
      (fun o => { o with status := .confirmed })).map (fun o => o.id)).Nodup
    rw [updateOrderIn_map_id _ order.id
      (fun o => { o with status := .confirmed }) (fun o => rfl)]
    exact h.order_ids_nodup
  · exact order_ids_lt_updateOrderIn db.orders order.id
      (fun o => { o with status := .confirmed }) (fun o => rfl) _ h.order_ids_lt
  · exact h.item_order_ids_lt
  · exact h.items_variant_nodup
  · exact h.cart_variant_nodup

/-- Well-formedness of the state committed by a fresh create_order run. -/
theorem WF_create_commit (db : DB) (h : WF db)
    (requested : List (Nat × Nat)) (hkeys : (requested.map Prod.fst).Nodup)
    (hcheck : checkRequestedStock db requested = .ok ())
    (u : Nat) (order : Order) (hoid : order.id = db.next_order_id)
    (newItems : List OrderItem)
    (hni_oid : ∀ it ∈ newItems, it.order_id = db.next_order_id)
    (hni_var : newItems.map (fun it => it.variant_id) =
      (db.cart_items.filter (fun c => c.user_id == u)).map (fun c => c.variant_id))
    (nid npid : Nat) :
    WF { variants := deductQuantities db.variants requested, products := db.products,
         orders := db.orders ++ [order],
         order_items := db.order_items ++ newItems,
         payments := db.payments,
         cart_items := db.cart_items.filter (fun c => !(c.user_id == u)),
         addresses := db.addresses,
         next_order_id := db.next_order_id + 1,
         next_order_item_id := nid,
         next_payment_id := npid } := by
  constructor
  · exact nonneg_deductQuantities _ _ h.variant_ids_nodup hkeys
      (checkRequested_bound db requested hcheck h.variant_ids_nodup) h.stocks_nonneg
  · show ((deductQuantities db.variants requested).map (fun v => v.id)).Nodup
    rw [deductQuantities_map_id]
    exact h.variant_ids_nodup
  · show (((db.orders ++ [order]).map (fun o => o.id))).Nodup
    rw [List.map_append]
    refine List.Nodup.append h.order_ids_nodup (by simp) ?_
    intro a ha hb
    rcases List.mem_map.mp ha with ⟨o₀, ho₀, he⟩
    have hlt := h.order_ids_lt o₀ ho₀
    simp only [List.map_cons, List.map_nil, List.mem_singleton] at hb
    rw [hb, hoid] at he
    omega
  · show ∀ o ∈ db.orders ++ [order], o.id < db.next_order_id + 1
    intro o ho
    rcases List.mem_append.mp ho with ho' | ho'
    · have := h.order_ids_lt o ho'
      omega
    · rw [List.mem_singleton] at ho'
      rw [ho', hoid]
      omega
  · show ∀ it ∈ db.order_items ++ newItems, it.order_id < db.next_order_id + 1
    intro it hit
    rcases List.mem_append.mp hit with hit' | hit'
    · have := h.item_order_ids_lt it hit'
      omega
    · rw [hni_oid it hit']
      omega
  · intro oid
    show (((db.order_items ++ newItems).filter
      (fun it => it.order_id == oid)).map (fun it => it.variant_id)).Nodup
    rw [List.filter_append]
    by_cases hoid' : oid = db.next_order_id
    · have h1 : db.order_items.filter (fun it => it.order_id == oid) = [] := by
        refine List.filter_eq_nil_iff.mpr ?_
        intro it hit
        have := h.item_order_ids_lt it hit
        simp only [beq_iff_eq]
        omega
      have h2 : newItems.filter (fun it => it.order_id == oid) = newItems := by
        refine List.filter_eq_self.mpr ?_
        intro it hit
        simp [hni_oid it hit, hoid']
      rw [h1, h2, List.nil_append, hni_var]
      exact h.cart_variant_nodup u
    · have h2 : newItems.filter (fun it => it.order_id == oid) = [] := by
        refine List.filter_eq_nil_iff.mpr ?_
        intro it hit
        simp only [beq_iff_eq]
        rw [hni_oid it hit]
        omega
      rw [h2, List.append_nil]
      exact h.items_variant_nodup oid
  · intro w
    show ((((db.cart_items.filter (fun c => !(c.user_id == u))).filter
      (fun c => c.user_id == w))).map (fun c => c.variant_id)).Nodup
    refine List.Nodup.sublist ?_ (h.cart_variant_nodup w)
    exact List.Sublist.map _ (List.Sublist.filter _ (List.filter_sublist _))

theorem WF_create_order (u : Nat) (data : OrderCreateData) (candidates : List String)
    (now : Int) (db : DB) (h : WF db) :
    WF (create_order u data candidates now db).2 := by
  unfold create_order
  split
  · exact h
  · dsimp only
    split
    · exact h
    · split
      · exact h
      · split
        · exact h
        · split
          · exact h
          · rename_i hcheck
            split
            · exact h
            · rename_i pr pitems subtotal hbuild
              split
              · exact h
              · rename_i order_number hnum
                split
                · -- cash on delivery: confirm and add the pending COD payment
                  refine WF_create_cod_payment _ _ ?_
                  exact WF_create_commit db h _
                    (collapseQuantities_keys_nodup _) hcheck u _ rfl _
                    (buildItemRows_order_id _ _ _)
                    ((buildItemRows_variant_ids _ _ _).trans
                      (buildOrderItems_variant_ids _ _ _ _ hbuild)) _ _
                · exact WF_create_commit db h _
                    (collapseQuantities_keys_nodup _) hcheck u _ rfl _
                    (buildItemRows_order_id _ _ _)
                    ((buildItemRows_variant_ids _ _ _).trans
                      (buildOrderItems_variant_ids _ _ _ _ hbuild)) _ _

/-- Every core operation preserves well-formedness. -/
theorem WF_applyOp (op : CoreOp) (db : DB) (h : WF db) : WF (applyOp op db) := by
  cases op with
  | createOrder u data candidates now => exact WF_create_order u data candidates now db h
  | verifyPayment hmacHex secret oid pid sig u now =>
      exact WF_verify_payment hmacHex secret oid pid sig u now db h
  | webhook sigValid ev now => exact WF_razorpay_webhook sigValid ev now db h
  | cancelOrder oid u => exact WF_cancel_order oid u db h
  | sweep now => exact WF_auto_cancel_pending_orders now db h

/-- Well-formedness is an inductive invariant of the core. -/
theorem WF_reachable {start db : DB} (h : WF start) (hr : Reachable start db) : WF db := by
  induction hr with
  | refl => exact h
  | step op _ ih => exact WF_applyOp op _ ih

/-- Concrete store used by the witness instantiations: one product with
one variant in stock, one registered address, one cart line. -/
def sampleDB : DB :=
  { variants := [{ id := 1, product_id := 1, size := "M", color := none,
                   additional_price := 0, stock_quantity := 5 }],
    products := [{ id := 1, name := "Kurti", base_price := 500, sale_price := none }],
    orders := [], order_items := [], payments := [],
    cart_items := [{ id := 1, user_id := 1, product_id := 1, variant_id := 1, quantity := 2 }],
    addresses := [{ id := 1, user_id := 1 }],
    next_order_id := 1, next_order_item_id := 1, next_payment_id := 1 }

/-- Concrete create_order request body used by witness instantiations. -/
def sampleOrderData : OrderCreateData :=
  { shipping_address_id := 1, billing_address_id := 1, payment_method := "razorpay",
    customer_notes := none, idempotency_key := "key1" }

theorem WF_sampleDB : WF sampleDB := by
  constructor
  · intro v hv
    rcases List.mem_singleton.mp hv with rfl
    decide
  · decide
  · decide
  · intro o ho; cases ho
  · intro it hit; cases hit
  · intro oid; simp [itemsOf, sampleDB]
  · intro w
    cases h : ((1 : Nat) == w) <;>
      simp [sampleDB, List.filter, h]

/-- C1: in every state reachable by the core operations (createOrder,
verifyPayment, webhook handling, cancelOrder, expiry reclamation) from a
well-formed state, every ProductVariant.stock_quantity is nonnegative;
each operation deducts a quantity from a variant only after checking it
against the current stock and rejects the deduction with
InsufficientStock otherwise, which is what the preservation lemmas
behind this theorem verify branch by branch. -/
theorem C1_stock_nonneg_reachable (start db : DB) (h : WF start)
    (hr : Reachable start db) : ∀ v ∈ db.variants, 0 ≤ v.stock_quantity :=
  (WF_reachable h hr).stocks_nonneg

/-- Witness for C1: the sample store is well-formed and one createOrder
step keeps all stocks nonnegative. -/
theorem C1_stock_nonneg_reachable_witness :
    ((applyOp (CoreOp.createOrder 1 sampleOrderData ["AMZ1"] 0) sampleDB).variants.all
      (fun v => decide (0 ≤ v.stock_quantity))) = true :=
  List.all_eq_true.mpr (fun v hv => decide_eq_true
    (C1_stock_nonneg_reachable sampleDB _ WF_sampleDB
      (Reachable.step (CoreOp.createOrder 1 sampleOrderData ["AMZ1"] 0) Reachable.refl)
      v hv))

theorem sorted_lt_insertionSort_of_nodup (l : List Nat) (h : l.Nodup) :
    List.Sorted (· < ·) (List.insertionSort (· ≤ ·) l) :=
  (List.sorted_insertionSort (· ≤ ·) l).lt_of_le
    ((List.perm_insertionSort (· ≤ ·) l).nodup_iff.mpr h)

/-- C9: every code path that locks multiple variants — order creation,
payment verification, webhook handling, and the expiry sweep — issues
its per-variant FOR UPDATE lock requests in strictly ascending
variant-id order. -/
theorem C9_lock_sequences_ascending :
    (∀ cart : List CartItem,
      List.Sorted (· < ·) (create_order_lock_sequence cart)) ∧
    (∀ items : List OrderItem,
      List.Sorted (· < ·) (verify_payment_lock_sequence items)) ∧
    (∀ items : List OrderItem,
      List.Sorted (· < ·) (webhook_lock_sequence items)) ∧
    (∀ items : List OrderItem,
      List.Sorted (· < ·) (sweep_lock_sequence items)) := by
  refine ⟨fun cart => ?_, fun items => ?_, fun items => ?_, fun items => ?_⟩
  · exact sorted_lt_insertionSort_of_nodup _ (collapseQuantities_keys_nodup cart)
  · exact sorted_lt_insertionSort_of_nodup _ (List.nodup_dedup _)
  · exact sorted_lt_insertionSort_of_nodup _ (List.nodup_dedup _)
  · exact sorted_lt_insertionSort_of_nodup _ (List.nodup_dedup _)

theorem find?_user_key_updateOrderIn (os : List Order) (oid : Nat) (u : Nat) (key : String)
    (f : Order → Order)
    (hf : ∀ o, (f o).user_id = o.user_id ∧ (f o).idempotency_key = o.idempotency_key) :
    (updateOrderIn os oid f).find? (fun o => o.user_id == u && o.idempotency_key == key) =
      (os.find? (fun o => o.user_id == u && o.idempotency_key == key)).map
        (fun o => if o.id = oid then f o else o) := by
  unfold updateOrderIn
  refine find?_map_of_pred _ _ ?_ os
  intro o
  by_cases hx : o.id = oid <;> simp [hx, (hf o).1, (hf o).2]

/-- Inversion of a successful create_order run: the committed state holds
an order matching the idempotency lookup whose id and number are the ones
returned. -/
theorem create_order_replay (u : Nat) (data : OrderCreateData) (candidates : List String)
    (now : Int) (db : DB) (r : CreateReply) (db2 : DB)
    (h : create_order u data candidates now db = (.ok r, db2)) :
    (db2.orders.find?
        (fun o => o.user_id == u && o.idempotency_key == data.idempotency_key)).map
      (fun o => (o.id, o.order_number)) = some (r.order_id, r.order_number) := by
  unfold create_order at h
  split at h
  · rename_i existing hfound
    obtain ⟨h1, h2⟩ := Prod.mk.inj h
    injection h1 with h1
    subst h2
    rw [hfound, ← h1]
    rfl
  · rename_i hnone
    dsimp only at h
    split at h
    · exact absurd (Prod.mk.inj h).1 (by intro hx; cases hx)
    · split at h
      · exact absurd (Prod.mk.inj h).1 (by intro hx; cases hx)
      · split at h
        · exact absurd (Prod.mk.inj h).1 (by intro hx; cases hx)
        · split at h
          · exact absurd (Prod.mk.inj h).1 (by intro hx; cases hx)
          · split at h
            · exact absurd (Prod.mk.inj h).1 (by intro hx; cases hx)
            · rename_i pr pitems subtotal hbuild
              split at h
              · exact absurd (Prod.mk.inj h).1 (by intro hx; cases hx)
              · rename_i order_number hnum
                split at h
                · -- cash on delivery: the committed state confirms the fresh order
                  obtain ⟨h1, h2⟩ := Prod.mk.inj h
                  injection h1 with h1
                  subst h2
                  unfold create_cod_payment
                  rw [find?_user_key_updateOrderIn _ _ u data.idempotency_key
                      (fun o => { o with status := .confirmed }) (fun o => ⟨rfl, rfl⟩),
                    List.find?_append, hnone]
                  simp only [Option.none_or]
                  rw [List.find?_cons_of_pos _ (by simp), ← h1]
                  simp
                · -- gateway payment: the committed state appends the fresh order
                  obtain ⟨h1, h2⟩ := Prod.mk.inj h
                  injection h1 with h1
                  subst h2
                  rw [List.find?_append, hnone]
                  simp only [Option.none_or]
                  rw [List.find?_cons_of_pos _ (by simp), ← h1]
                  rfl

/-- C3: a second createOrder call with the same (userID, idempotencyKey)
returns the same order record (same orderID and order_number) as the
first call and re-runs no side effects: the committed database (stock,
orders, order items, payments, cart) is returned unchanged. -/
theorem C3_create_order_idempotent (u : Nat) (data data2 : OrderCreateData)
    (candidates candidates2 : List String) (now now2 : Int) (db db2 : DB) (r : CreateReply)
    (hkey : data2.idempotency_key = data.idempotency_key)
    (h : create_order u data candidates now db = (.ok r, db2)) :
    (create_order u data2 candidates2 now2 db2).2 = db2 ∧
    ∃ r2, (create_order u data2 candidates2 now2 db2).1 = .ok r2 ∧
      r2.order_id = r.order_id ∧ r2.order_number = r.order_number := by
  have hrep := create_order_replay u data candidates now db r db2 h
  cases hfind : db2.orders.find?
      (fun o => o.user_id == u && o.idempotency_key == data.idempotency_key) with
  | none => rw [hfind] at hrep; cases hrep
  | some o =>
    rw [hfind, Option.map_some'] at hrep
    injection hrep with hrep
    obtain ⟨hid, hnum⟩ := Prod.mk.inj hrep
    unfold create_order
    rw [hkey, hfind]
    exact ⟨rfl, ⟨o.id, o.order_number, o.status⟩, rfl, hid, hnum⟩

/-- Witness for C3: replaying the sample createOrder call returns the
same order id and number and leaves the database unchanged. -/
theorem C3_create_order_idempotent_witness :
    (create_order 1 sampleOrderData ["AMZ2"] 5
        (create_order 1 sampleOrderData ["AMZ1"] 0 sampleDB).2).2 =
      (create_order 1 sampleOrderData ["AMZ1"] 0 sampleDB).2 ∧
    ∃ r2, (create_order 1 sampleOrderData ["AMZ2"] 5
        (create_order 1 sampleOrderData ["AMZ1"] 0 sampleDB).2).1 = .ok r2 ∧
      r2.order_id = 1 ∧ r2.order_number = "AMZ1" :=
  C3_create_order_idempotent 1 sampleOrderData sampleOrderData ["AMZ1"] ["AMZ2"] 0 5
    sampleDB _ ⟨1, "AMZ1", .pending⟩ rfl rfl

theorem find?_rzorder_updatePaymentIn (ps : List Payment) (pid0 : Nat) (oid : String)
    (f : Payment → Payment) (hf : ∀ p, (f p).razorpay_order_id = p.razorpay_order_id) :
    (updatePaymentIn ps pid0 f).find? (fun p => p.razorpay_order_id == some oid) =
      (ps.find? (fun p => p.razorpay_order_id == some oid)).map
        (fun p => if p.id = pid0 then f p else p) := by
  unfold updatePaymentIn
  refine find?_map_of_pred _ _ ?_ ps
  intro p
  by_cases hx : p.id = pid0 <;> simp [hx, hf p]

theorem findOrder?_updateOrderIn (os : List Order) (oid0 target : Nat) (f : Order → Order)
    (hf : ∀ o, (f o).id = o.id) :
    findOrder? (updateOrderIn os oid0 f) target =
      (findOrder? os target).map (fun o => if o.id = oid0 then f o else o) := by
  unfold findOrder? updateOrderIn
  refine find?_map_of_pred _ _ ?_ os
  intro o
  by_cases hx : o.id = oid0 <;> simp [hx, hf o]

/-- Inversion of a successful verify_payment run: the preconditions that
must have held and the committed payment/order rewrites. -/
theorem verify_payment_ok_inversion (hmacHex : String → String → String)
    (secret oid pid sig : String) (u : Nat) (now : Int) (db db2 : DB) (r : VerifyReply)
    (h : verify_payment hmacHex secret oid pid sig u now db = (.ok r, db2)) :
    ¬(oid = "" ∨ pid = "" ∨ sig = "") ∧
    hmacHex secret (oid ++ "|" ++ pid) = sig ∧
    ∃ payment order,
      db.payments.find? (fun p => p.razorpay_order_id == some oid) = some payment ∧
      findOrder? db.orders payment.order_id = some order ∧
      order.user_id = u ∧
      r = ⟨order.order_number, .success, .confirmed⟩ ∧
      db2.payments = updatePaymentIn db.payments payment.id
        (fun p => { p with razorpay_payment_id := some pid, razorpay_signature := some sig,
                           payment_status := .success, paid_at := some now }) ∧
      db2.orders = updateOrderIn db.orders order.id
        (fun o => { o with status := .confirmed, expires_at := none,
                           stock_deducted := true }) := by
  unfold verify_payment at h
  split at h
  · exact absurd (Prod.mk.inj h).1 (by intro hx; cases hx)
  · rename_i hne
    split at h
    · exact absurd (Prod.mk.inj h).1 (by intro hx; cases hx)
    · rename_i payment hpay
      split at h
      · exact absurd (Prod.mk.inj h).1 (by intro hx; cases hx)
      · rename_i order hord
        split at h
        · exact absurd (Prod.mk.inj h).1 (by intro hx; cases hx)
        · rename_i hu
          split at h
          · exact absurd (Prod.mk.inj h).1 (by intro hx; cases hx)
          · rename_i hsig
            split at h
            · exact absurd (Prod.mk.inj h).1 (by intro hx; cases hx)
            · split at h
              · exact absurd (Prod.mk.inj h).1 (by intro hx; cases hx)
              · dsimp only at h
                split at h
                · exact absurd (Prod.mk.inj h).1 (by intro hx; cases hx)
                · obtain ⟨h1, h2⟩ := Prod.mk.inj h
                  injection h1 with h1
                  exact ⟨hne, not_ne_iff.mp hsig, payment, order, hpay, hord,
                    not_ne_iff.mp hu, h1.symm, congrArg DB.payments h2.symm,
                    congrArg DB.orders h2.symm⟩

/-- C4: calling verifyPayment twice with the same gateway references
succeeds exactly once: the second call finds the Payment already in
Success, fails AlreadyProcessed, and applies no effects (the committed
database of the first call is returned unchanged), so stock is deducted
and the order confirmed exactly once across the two calls. -/
theorem C4_verify_payment_idempotent (hmacHex : String → String → String)
    (secret oid pid sig : String) (u : Nat) (now now2 : Int) (db db2 : DB) (r : VerifyReply)
    (h : verify_payment hmacHex secret oid pid sig u now db = (.ok r, db2)) :
    verify_payment hmacHex secret oid pid sig u now2 db2 = (.error .alreadyProcessed, db2) := by
  obtain ⟨hne, hsig, payment, order, hpay, hord, hu, hr, hpays, hords⟩ :=
    verify_payment_ok_inversion hmacHex secret oid pid sig u now db db2 r h
  have hpay2 : db2.payments.find? (fun p => p.razorpay_order_id == some oid) =
      some { payment with razorpay_payment_id := some pid, razorpay_signature := some sig,
                          payment_status := .success, paid_at := some now } := by
    rw [hpays, find?_rzorder_updatePaymentIn db.payments payment.id oid
        (fun p => { p with razorpay_payment_id := some pid, razorpay_signature := some sig,
                           payment_status := .success, paid_at := some now })
        (fun p => rfl), hpay, Option.map_some', if_pos rfl]
  have hord2 : findOrder? db2.orders payment.order_id =
      some { order with status := .confirmed, expires_at := none,
                        stock_deducted := true } := by
    rw [hords, findOrder?_updateOrderIn db.orders order.id payment.order_id
        (fun o => { o with status := .confirmed, expires_at := none,
                           stock_deducted := true })
        (fun o => rfl), hord, Option.map_some', if_pos rfl]
  unfold verify_payment
  rw [if_neg hne]
  simp only [hpay2]
  simp only [hord2]
  simp [hu, hsig]

/-- Concrete store with a pending gateway payment for the sample order. -/
def samplePayDB : DB :=
  { sampleDB with
    orders := [{ id := 1, order_number := "AMZ1", user_id := 1, subtotal := 1000,
                 tax_amount := 180, shipping_charge := 100, total_amount := 1280,
                 status := .pending, expires_at := some 30, stock_deducted := true,
                 idempotency_key := "key1", shipping_address_id := 1,
                 billing_address_id := 1, customer_notes := none, created_at := 0 }],
    payments := [{ id := 1, order_id := 1, payment_method := .razorpay,
                   payment_status := .pending, amount := 1280,
                   razorpay_order_id := some "rzo", razorpay_payment_id := none,
                   razorpay_signature := none, paid_at := none }],
    cart_items := [], next_order_id := 2, next_payment_id := 2 }

/-- Stand-in for the HMAC-SHA256 hex primitive in concrete witnesses. -/
def sampleHmac : String → String → String := fun k m => k ++ "#" ++ m

/-- Witness for C4 at a concrete settled payment. -/
theorem C4_verify_payment_idempotent_witness :
    verify_payment sampleHmac "s" "rzo" "pp" "s#rzo|pp" 1 8
        (verify_payment sampleHmac "s" "rzo" "pp" "s#rzo|pp" 1 7 samplePayDB).2 =
      (.error .alreadyProcessed,
        (verify_payment sampleHmac "s" "rzo" "pp" "s#rzo|pp" 1 7 samplePayDB).2) :=
  C4_verify_payment_idempotent sampleHmac "s" "rzo" "pp" "s#rzo|pp" 1 7 8 samplePayDB _
    ⟨"AMZ1", .success, .confirmed⟩ rfl

/-- Counterexample to C5 as stated: a verifyPayment call with a forged
signature does return the tamper-rejection error, but it does change
payment and order state: the pending payment is marked Failed and the
commit is issued before the error is raised. -/
theorem C5_counterexample_signature_mutates_state :
    (verify_payment sampleHmac "s" "rzo" "pp" "forged" 1 7 samplePayDB).1
        = .error .invalidSignature ∧
    samplePayDB.payments.map (fun p => p.payment_status) = [.pending] ∧
    (verify_payment sampleHmac "s" "rzo" "pp" "forged" 1 7 samplePayDB).2.payments.map
        (fun p => p.payment_status) = [.failed] :=
  ⟨rfl, rfl, rfl⟩

/-- C5 amended: a verifyPayment call whose arguments are nonempty, whose
gateway order reference resolves to a payment on an order owned by the
caller, and whose supplied signature differs from the locally recomputed
HMAC, always returns the tamper-rejection error; it marks exactly that
payment Failed and reverts exactly that order to Pending (a committed
mutation), and changes nothing else — in particular no variant stock,
no order items and no cart rows. -/
theorem C5_signature_mismatch_rejected (hmacHex : String → String → String)
    (secret oid pid sig : String) (u : Nat) (now : Int) (db : DB)
    (payment : Payment) (order : Order)
    (hne : ¬(oid = "" ∨ pid = "" ∨ sig = ""))
    (hpay : db.payments.find? (fun p => p.razorpay_order_id == some oid) = some payment)
    (hord : findOrder? db.orders payment.order_id = some order)
    (hu : order.user_id = u)
    (hmis : hmacHex secret (oid ++ "|" ++ pid) ≠ sig) :
    verify_payment hmacHex secret oid pid sig u now db =
      (.error .invalidSignature,
       { db with
           payments := updatePaymentIn db.payments payment.id
             (fun p => { p with payment_status := .failed }),
           orders := updateOrderIn db.orders order.id
             (fun o => { o with status := .pending }) }) := by
  unfold verify_payment
  rw [if_neg hne]
  simp only [hpay, hord]
  rw [if_neg (not_ne_iff.mpr hu), if_pos hmis]

/-- Witness for the amended C5 at a concrete forged-signature call. -/
theorem C5_signature_mismatch_rejected_witness :
    verify_payment sampleHmac "s" "rzo" "pp" "forged" 1 7 samplePayDB =
      (.error .invalidSignature,
       { samplePayDB with
           payments := updatePaymentIn samplePayDB.payments 1
             (fun p => { p with payment_status := .failed }),
           orders := updateOrderIn samplePayDB.orders 1
             (fun o => { o with status := .pending }) }) :=
  C5_signature_mismatch_rejected sampleHmac "s" "rzo" "pp" "forged" 1 7 samplePayDB
    { id := 1, order_id := 1, payment_method := .razorpay, payment_status := .pending,
      amount := 1280, razorpay_order_id := some "rzo", razorpay_payment_id := none,
      razorpay_signature := none, paid_at := none }
    { id := 1, order_number := "AMZ1", user_id := 1, subtotal := 1000, tax_amount := 180,
      shipping_charge := 100, total_amount := 1280, status := .pending,
      expires_at := some 30, stock_deducted := true, idempotency_key := "key1",
      shipping_address_id := 1, billing_address_id := 1, customer_notes := none,
      created_at := 0 }
    (by simp) rfl rfl rfl (by decide)

/-- Concrete store in which the sample payment has already settled. -/
def sampleSuccessDB : DB :=
  { samplePayDB with
    orders := [{ id := 1, order_number := "AMZ1", user_id := 1, subtotal := 1000,
                 tax_amount := 180, shipping_charge := 100, total_amount := 1280,
                 status := .confirmed, expires_at := none, stock_deducted := true,
                 idempotency_key := "key1", shipping_address_id := 1,
                 billing_address_id := 1, customer_notes := none, created_at := 0 }],
    payments := [{ id := 1, order_id := 1, payment_method := .razorpay,
                   payment_status := .success, amount := 1280,
                   razorpay_order_id := some "rzo", razorpay_payment_id := some "pp",
                   razorpay_signature := some "s#rzo|pp", paid_at := some 7 }] }

/-- Counterexample to C2 as stated: a payment.failed webhook event on a
payment whose status is already Success overwrites that status to Failed
(and reverts the order to Pending) — the handler never consults the
current status on the failed path. -/
theorem C2_counterexample_failed_webhook_overwrites_success :
    sampleSuccessDB.payments.map (fun p => p.payment_status) = [.success] ∧
    (razorpay_webhook true ⟨"payment.failed", "pp", "rzo"⟩ 9 sampleSuccessDB).2.payments.map
        (fun p => p.payment_status) = [.failed] ∧
    (razorpay_webhook true ⟨"payment.failed", "pp", "rzo"⟩ 9 sampleSuccessDB).2.orders.map
        (fun o => o.status) = [.pending] :=
  ⟨rfl, rfl, rfl⟩

theorem find?_id_updatePaymentIn (ps : List Payment) (k i : Nat) (f : Payment → Payment)
    (hf : ∀ p, (f p).id = p.id) :
    (updatePaymentIn ps k f).find? (fun p => p.id == i) =
      (ps.find? (fun p => p.id == i)).map (fun p => if p.id = k then f p else p) := by
  unfold updatePaymentIn
  refine find?_map_of_pred _ _ ?_ ps
  intro p
  by_cases hx : p.id = k <;> simp [hx, hf p]

/-- A payment-table rewrite that only ever writes Success preserves the
Success status of the row with any given id. -/
theorem success_stable_update (ps : List Payment) (k i : Nat) (f : Payment → Payment)
    (hf : ∀ p, (f p).id = p.id ∧ (f p).payment_status = .success)
    (h : (ps.find? (fun p => p.id == i)).map (fun p => p.payment_status) = some .success) :
    ((updatePaymentIn ps k f).find? (fun p => p.id == i)).map
      (fun p => p.payment_status) = some .success := by
  rw [find?_id_updatePaymentIn ps k i f (fun p => (hf p).1)]
  cases hfind : ps.find? (fun p => p.id == i) with
  | none => rw [hfind] at h; cases h
  | some p =>
    rw [hfind] at h
    simp only [Option.map_some'] at h ⊢
    by_cases he : p.id = k
    · simp [he, (hf p).2]
    · simpa [he] using h

/-- C2 amended: payment Success is terminal under the guarded paths: a
verifyPayment call whose supplied signature matches the recomputed HMAC
(whatever its other arguments), and any payment.captured webhook
delivery, never change the payment_status of a payment that is already
Success.  (As the counterexample shows, a mismatching-signature
verifyPayment call or a payment.failed webhook event can overwrite
Success with Failed.) -/
theorem C2_success_terminal_guarded (db : DB) (i : Nat) :
    (∀ (hmacHex : String → String → String) (secret oid pid sig : String) (u : Nat) (now : Int),
      hmacHex secret (oid ++ "|" ++ pid) = sig →
      (db.payments.find? (fun p => p.id == i)).map (fun p => p.payment_status)
        = some .success →
      (((verify_payment hmacHex secret oid pid sig u now db).2.payments.find?
          (fun p => p.id == i)).map (fun p => p.payment_status)) = some .success) ∧
    (∀ (sigValid : Bool) (ev : WebhookEvent) (now : Int),
      ev.event = "payment.captured" →
      (db.payments.find? (fun p => p.id == i)).map (fun p => p.payment_status)
        = some .success →
      (((razorpay_webhook sigValid ev now db).2.payments.find?
          (fun p => p.id == i)).map (fun p => p.payment_status)) = some .success) := by
  constructor
  · intro hmacHex secret oid pid sig u now hsig hsucc
    unfold verify_payment
    split
    · exact hsucc
    · split
      · exact hsucc
      · rename_i payment hpay
        split
        · exact hsucc
        · rename_i order hord
          split
          · exact hsucc
          · split
            · rename_i hmis
              exact absurd hsig hmis
            · split
              · exact hsucc
              · split
                · exact hsucc
                · dsimp only
                  split
                  · exact hsucc
                  · exact success_stable_update db.payments payment.id i _
                      (fun p => ⟨rfl, rfl⟩) hsucc
  · intro sigValid ev now hev hsucc
    unfold razorpay_webhook
    repeat' (first
      | exact hsucc
      | exact success_stable_update db.payments _ i _ (fun p => ⟨rfl, rfl⟩) hsucc
      | (rename_i hnc; exact absurd hev hnc)
      | dsimp only
      | split)

/-- Witness for the amended C2: the settled sample payment stays Success
under a matching-signature verify call and under a payment.captured
webhook delivery. -/
theorem C2_success_terminal_guarded_witness :
    ((sampleSuccessDB.payments.find? (fun p => p.id == 1)).map
      (fun p => p.payment_status) = some .success) ∧
    (((verify_payment sampleHmac "s" "rzo" "pp2" "s#rzo|pp2" 1 9
        sampleSuccessDB).2.payments.find? (fun p => p.id == 1)).map
      (fun p => p.payment_status) = some .success) ∧
    (((razorpay_webhook true ⟨"payment.captured", "pp", "rzo"⟩ 9
        sampleSuccessDB).2.payments.find? (fun p => p.id == 1)).map
      (fun p => p.payment_status) = some .success) :=
  ⟨rfl,
   (C2_success_terminal_guarded sampleSuccessDB 1).1 sampleHmac "s" "rzo" "pp2"
     "s#rzo|pp2" 1 9 rfl rfl,
   (C2_success_terminal_guarded sampleSuccessDB 1).2 true
     ⟨"payment.captured", "pp", "rzo"⟩ 9 rfl rfl⟩

theorem checkItemsStock_of_bounds (locked : List ProductVariant) (items : List OrderItem)
    (h : ∀ it ∈ items, ∃ v, findVariant? locked it.variant_id = some v ∧
      (it.quantity : Int) ≤ v.stock_quantity) :
    checkItemsStock locked items = .ok () := by
  induction items with
  | nil => rfl
  | cons a items ih =>
    obtain ⟨v, hv, hb⟩ := h a (List.mem_cons_self a items)
    unfold checkItemsStock
    simp only [hv]
    rw [if_neg (not_lt.mpr hb)]
    exact ih (fun it hit => h it (List.mem_cons_of_mem a hit))

/-- C6: delivering the same valid-signature payment.captured event twice
yields exactly one stock deduction and one transition of the order to
Confirmed: the first delivery (here in delayed-reservation state,
stock_deducted = false, with sufficient stock) deducts each ordered
quantity once, marks the payment Success and the order Confirmed; the
second delivery finds payment_status already Success and returns the
duplicate acknowledgement with the database unchanged. -/
theorem C6_webhook_idempotent (ev : WebhookEvent) (now now2 : Int) (db : DB)
    (payment : Payment) (order : Order)
    (hev : ev.event = "payment.captured")
    (hpay : db.payments.find?
      (fun p => p.razorpay_order_id == some ev.entity_order_id) = some payment)
    (hnot : payment.payment_status ≠ .success)
    (hord : findOrder? db.orders payment.order_id = some order)
    (hsd : order.stock_deducted = false)
    (hnd : ((itemsOf db order.id).map (fun it => it.variant_id)).Nodup)
    (hstock : ∀ it ∈ itemsOf db order.id, ∃ v,
      findVariant? db.variants it.variant_id = some v ∧
        (it.quantity : Int) ≤ v.stock_quantity) :
    (razorpay_webhook true ev now db).1 = .ok .processed ∧
    (∀ it ∈ itemsOf db order.id,
      stockOf (razorpay_webhook true ev now db).2 it.variant_id =
        (stockOf db it.variant_id).map (fun s => s - (it.quantity : Int))) ∧
    findOrder? (razorpay_webhook true ev now db).2.orders payment.order_id =
      some { order with status := .confirmed, expires_at := none,
                        stock_deducted := true } ∧
    razorpay_webhook true ev now2 (razorpay_webhook true ev now db).2 =
      (.ok .duplicate, (razorpay_webhook true ev now db).2) := by
  have hchk : checkItemsStock
      (db.variants.filter
        (fun v => (webhook_lock_sequence (itemsOf db order.id)).contains v.id))
      (itemsOf db order.id) = .ok () := by
    refine checkItemsStock_of_bounds _ _ ?_
    intro it hit
    obtain ⟨v, hv, hb⟩ := hstock it hit
    refine ⟨v, ?_, hb⟩
    rw [findVariant?_filter_contains _ _ _ (mem_webhook_lock_sequence hit)]
    exact hv
  have hres : razorpay_webhook true ev now db =
      (.ok .processed,
       { db with
           variants := deductQuantities db.variants (itemQuantities (itemsOf db order.id)),
           payments := updatePaymentIn db.payments payment.id
             (fun p => { p with razorpay_payment_id := some ev.entity_payment_id,
                                payment_status := .success, paid_at := some now }),
           orders := updateOrderIn db.orders order.id
             (fun o => { o with status := .confirmed, expires_at := none,
                                stock_deducted := true }) }) := by
    unfold razorpay_webhook
    rw [if_neg (by decide), if_pos hev]
    simp only [hpay]
    rw [if_neg hnot]
    simp only [hord]
    simp only [hsd, Bool.false_eq_true, if_false]
    simp only [hchk]
  refine ⟨by rw [hres], ?_, ?_, ?_⟩
  · intro it hit
    rw [hres]
    show lookupStock (deductQuantities db.variants (itemQuantities (itemsOf db order.id)))
      it.variant_id = _
    rw [lookupStock_deduct_mem _ _ _ it.quantity ?keys ?mem]
    · rfl
    case keys =>
      rw [itemQuantities_keys]
      exact hnd
    case mem =>
      exact List.mem_map_of_mem _ hit
  · rw [hres]
    show findOrder? (updateOrderIn db.orders order.id _) payment.order_id = _
    rw [findOrder?_updateOrderIn db.orders order.id payment.order_id
      (fun o => { o with status := .confirmed, expires_at := none,
                         stock_deducted := true }) (fun o => rfl),
      hord, Option.map_some', if_pos rfl]
  · rw [hres]
    have hpay2 : (updatePaymentIn db.payments payment.id
        (fun p => { p with razorpay_payment_id := some ev.entity_payment_id,
                           payment_status := .success, paid_at := some now })).find?
        (fun p => p.razorpay_order_id == some ev.entity_order_id) =
        some { payment with razorpay_payment_id := some ev.entity_payment_id,
                            payment_status := .success, paid_at := some now } := by
      rw [find?_rzorder_updatePaymentIn db.payments payment.id ev.entity_order_id
        (fun p => { p with razorpay_payment_id := some ev.entity_payment_id,
                           payment_status := .success, paid_at := some now })
        (fun p => rfl), hpay, Option.map_some', if_pos rfl]
    unfold razorpay_webhook
    rw [if_neg (by decide), if_pos hev]
    simp only [hpay2]
    rfl

/-- Concrete store in delayed-reservation shape: the pending order has
stock_deducted = false and one line item of quantity 2 on the in-stock
variant; its gateway payment is pending. -/
def sampleDelayedDB : DB :=
  { samplePayDB with
    orders := [{ id := 1, order_number := "AMZ1", user_id := 1, subtotal := 1000,
                 tax_amount := 180, shipping_charge := 100, total_amount := 1280,
                 status := .pending, expires_at := some 30, stock_deducted := false,
                 idempotency_key := "key1", shipping_address_id := 1,
                 billing_address_id := 1, customer_notes := none, created_at := 0 }],
    order_items := [{ id := 1, order_id := 1, product_id := 1, variant_id := 1,
                      product_name := "Kurti", variant_details := "Size: M",
                      quantity := 2, unit_price := 500, total_price := 1000 }] }

/-- Witness for C6: on the concrete store the first delivery deducts the
stock from 5 to 3 and the second delivery is a duplicate no-op. -/
theorem C6_webhook_idempotent_witness :
    (razorpay_webhook true ⟨"payment.captured", "pp", "rzo"⟩ 7 sampleDelayedDB).1
        = .ok .processed ∧
    stockOf (razorpay_webhook true ⟨"payment.captured", "pp", "rzo"⟩ 7 sampleDelayedDB).2 1
        = some 3 ∧
    razorpay_webhook true ⟨"payment.captured", "pp", "rzo"⟩ 8
        (razorpay_webhook true ⟨"payment.captured", "pp", "rzo"⟩ 7 sampleDelayedDB).2 =
      (.ok .duplicate,
        (razorpay_webhook true ⟨"payment.captured", "pp", "rzo"⟩ 7 sampleDelayedDB).2) := by
  have T := C6_webhook_idempotent ⟨"payment.captured", "pp", "rzo"⟩ 7 8 sampleDelayedDB
    { id := 1, order_id := 1, payment_method := .razorpay, payment_status := .pending,
      amount := 1280, razorpay_order_id := some "rzo", razorpay_payment_id := none,
      razorpay_signature := none, paid_at := none }
    { id := 1, order_number := "AMZ1", user_id := 1, subtotal := 1000, tax_amount := 180,
      shipping_charge := 100, total_amount := 1280, status := .pending,
      expires_at := some 30, stock_deducted := false, idempotency_key := "key1",
      shipping_address_id := 1, billing_address_id := 1, customer_notes := none,
      created_at := 0 }
    rfl rfl (by decide) rfl rfl (by decide)
    (by
      intro it hit
      have hit2 : it ∈ [({ id := 1, order_id := 1, product_id := 1, variant_id := 1,
                           product_name := "Kurti", variant_details := "Size: M",
                           quantity := 2, unit_price := 500,
                           total_price := 1000 } : OrderItem)] := hit
      rcases List.mem_singleton.mp hit2 with rfl
      exact ⟨{ id := 1, product_id := 1, size := "M", color := none,
               additional_price := 0, stock_quantity := 5 }, rfl, by decide⟩)
  refine ⟨T.1, ?_, T.2.2.2⟩
  have hs := T.2.1
    { id := 1, order_id := 1, product_id := 1, variant_id := 1,
      product_name := "Kurti", variant_details := "Size: M",
      quantity := 2, unit_price := 500, total_price := 1000 }
    (by
      show _ ∈ [({ id := 1, order_id := 1, product_id := 1, variant_id := 1,
                   product_name := "Kurti", variant_details := "Size: M",
                   quantity := 2, unit_price := 500,
                   total_price := 1000 } : OrderItem)]
      exact List.mem_singleton.mpr rfl)
  rw [hs]
  rfl

theorem lockVariantsLoop_ok (db : DB) (ids : List Nat)
    (h : lockVariantsLoop db ids = .ok ()) :
    ∀ vid ∈ ids, ∃ v, findVariant? db.variants vid = some v := by
  induction ids with
  | nil => intro vid hvid; cases hvid
  | cons a ids ih =>
    intro vid hvid
    unfold lockVariantsLoop at h
    cases hf : findVariant? db.variants a with
    | none => rw [hf] at h; cases h
    | some v =>
      rw [hf] at h
      rcases List.mem_cons.mp hvid with rfl | hvid'
      · exact ⟨v, hf⟩
      · exact ih h vid hvid'

theorem mem_create_order_lock_sequence {vid : Nat} {cart : List CartItem}
    (h : vid ∈ (collapseQuantities cart).map Prod.fst) :
    vid ∈ create_order_lock_sequence cart :=
  ((List.perm_insertionSort (· ≤ ·) _).mem_iff).mpr h

/-- When every requested variant exists, a failing requested quantity
makes the validation loop surface InsufficientStock. -/
theorem checkRequestedStock_fails (db : DB) (qs : List (Nat × Nat))
    (hall : ∀ p ∈ qs, ∃ v, findVariant? db.variants p.1 = some v)
    (hfail : ∃ p ∈ qs, ∀ v, findVariant? db.variants p.1 = some v →
      v.stock_quantity < (p.2 : Int)) :
    ∃ s, checkRequestedStock db qs = .error (.insufficientStock s) := by
  induction qs with
  | nil => rcases hfail with ⟨p, hp, _⟩; cases hp
  | cons q qs ih =>
    obtain ⟨vid, qty⟩ := q
    obtain ⟨v, hv⟩ := hall (vid, qty) (List.mem_cons_self _ _)
    unfold checkRequestedStock
    simp only [hv]
    by_cases hlt : v.stock_quantity < (qty : Int)
    · exact ⟨productNameOfVariant db v, by rw [if_pos hlt]⟩
    · rw [if_neg hlt]
      rcases hfail with ⟨p, hp, hpf⟩
      rcases List.mem_cons.mp hp with he | hp'
      · exact absurd (hpf v (by rw [he]; exact hv)) (by rw [he]; exact hlt)
      · exact ih (fun p hp => hall p (List.mem_cons_of_mem _ hp)) ⟨p, hp', hpf⟩

/-- C7: if any collapsed per-variant requested quantity exceeds that
variant's stock, create_order fails with InsufficientStock and the
database is returned unchanged: no stock deducted anywhere, no order or
item row persisted, and the cart not cleared. -/
theorem C7_create_order_insufficient_stock (u : Nat) (data : OrderCreateData)
    (candidates : List String) (now : Int) (db : DB)
    (hnone : db.orders.find?
      (fun o => o.user_id == u && o.idempotency_key == data.idempotency_key) = none)
    (hne : ¬((db.cart_items.filter (fun c => c.user_id == u)).isEmpty = true))
    (haddr : ¬(((db.addresses.find?
        (fun a => a.id == data.shipping_address_id && a.user_id == u)).isNone ||
      (db.addresses.find?
        (fun a => a.id == data.billing_address_id && a.user_id == u)).isNone) = true))
    (hlock : lockVariantsLoop db
      (create_order_lock_sequence (db.cart_items.filter (fun c => c.user_id == u)))
        = .ok ())
    (hfail : ∃ p ∈ collapseQuantities (db.cart_items.filter (fun c => c.user_id == u)),
      ∀ v, findVariant? db.variants p.1 = some v → v.stock_quantity < (p.2 : Int)) :
    (create_order u data candidates now db).2 = db ∧
    ∃ s, (create_order u data candidates now db).1 = .error (.insufficientStock s) := by
  obtain ⟨s, hs⟩ := checkRequestedStock_fails db
    (collapseQuantities (db.cart_items.filter (fun c => c.user_id == u)))
    (fun p hp => lockVariantsLoop_ok db _ hlock p.1
      (mem_create_order_lock_sequence (List.mem_map_of_mem Prod.fst hp)))
    hfail
  unfold create_order
  rw [hnone]
  dsimp only
  rw [if_neg hne, if_neg haddr]
  simp only [hlock, hs]
  exact ⟨by trivial, s, by trivial⟩

/-- Concrete store whose single cart line requests more than the stock. -/
def sampleGreedyDB : DB :=
  { sampleDB with
    cart_items := [{ id := 1, user_id := 1, product_id := 1, variant_id := 1,
                     quantity := 99 }] }

/-- Witness for C7 at a concrete over-requesting cart. -/
theorem C7_create_order_insufficient_stock_witness :
    (create_order 1 sampleOrderData ["AMZ1"] 0 sampleGreedyDB).2 = sampleGreedyDB ∧
    ∃ s, (create_order 1 sampleOrderData ["AMZ1"] 0 sampleGreedyDB).1 =
      .error (.insufficientStock s) :=
  C7_create_order_insufficient_stock 1 sampleOrderData ["AMZ1"] 0 sampleGreedyDB
    rfl (by decide) (by decide) rfl
    (by
      refine ⟨(1, 99), ?_, ?_⟩
      · show (1, 99) ∈ [((1 : Nat), (99 : Nat))]
        exact List.mem_singleton.mpr rfl
      · intro v hv
        have hv2 : some ({ id := 1, product_id := 1, size := "M", color := none,
                           additional_price := 0,
                           stock_quantity := 5 } : ProductVariant) = some v := hv
        injection hv2 with hv2
        rw [← hv2]
        decide)

theorem auto_cancel_no_pending (now : Int) (db : DB)
    (h : db.orders.filter (fun x => x.status == OrderStatus.pending) = []) :
    auto_cancel_pending_orders now db = (0, db) := by
  unfold auto_cancel_pending_orders
  rw [h]
  rfl

theorem restoreItemsLocked_cons (locked vs : List ProductVariant) (a : OrderItem)
    (items : List OrderItem) :
    restoreItemsLocked locked vs (a :: items) =
      restoreItemsLocked locked
        (if locked.any (fun v => v.id == a.variant_id) then
          updateVariant vs a.variant_id (addStock a.quantity) else vs)
        items := by
  unfold restoreItemsLocked
  rw [List.foldl_cons]

/-- When every item's variant is present in the locked dict, the skip
guard never fires and the sweep restore equals the plain restore fold. -/
theorem restoreItemsLocked_eq_restore (locked : List ProductVariant)
    (items : List OrderItem)
    (h : ∀ it ∈ items, locked.any (fun v => v.id == it.variant_id) = true) :
    ∀ vs, restoreItemsLocked locked vs items =
      restoreQuantities vs (itemQuantities items) := by
  induction items with
  | nil => intro vs; rfl
  | cons a items ih =>
    intro vs
    rw [restoreItemsLocked_cons, if_pos (h a (List.mem_cons_self a items))]
    rw [ih (fun it hit => h it (List.mem_cons_of_mem a hit))]
    rfl

theorem locked_any_of_exists (vs : List ProductVariant) (ids : List Nat) (vid : Nat)
    (hmem : vid ∈ ids) (hex : (findVariant? vs vid).isSome) :
    (vs.filter (fun v => ids.contains v.id)).any (fun v => v.id == vid) = true := by
  cases hv : findVariant? vs vid with
  | none => rw [hv] at hex; cases hex
  | some v =>
    have hvm : v ∈ vs := List.mem_of_find?_eq_some hv
    have hvid : v.id = vid := by simpa using List.find?_some hv
    refine List.any_eq_true.mpr ⟨v, ?_, by simp [hvid]⟩
    refine List.mem_filter.mpr ⟨hvm, ?_⟩
    rw [hvid]
    simpa using hmem

/-- C8: sweeping a single expired Pending order with stock_deducted set
cancels it, clears expires_at, flips the flag, and restores each ordered
variant by exactly the item quantity; sweeping the resulting state again
cancels nothing and changes nothing. -/
theorem C8_sweep_restores_once (now now2 : Int) (db : DB) (o : Order)
    (horders : db.orders = [o])
    (hpend : o.status = .pending)
    (hexp : expiredAt now o = true)
    (hsd : o.stock_deducted = true)
    (hnd : ((itemsOf db o.id).map (fun it => it.variant_id)).Nodup)
    (hex : ∀ it ∈ itemsOf db o.id, (findVariant? db.variants it.variant_id).isSome) :
    auto_cancel_pending_orders now db =
      (1, { db with
              variants := restoreQuantities db.variants
                (itemQuantities (itemsOf db o.id)),
              orders := [{ o with status := .cancelled, stock_deducted := false,
                                  expires_at := none }] }) ∧
    (∀ it ∈ itemsOf db o.id,
      stockOf (auto_cancel_pending_orders now db).2 it.variant_id =
        (stockOf db it.variant_id).map (fun s => s + (it.quantity : Int))) ∧
    auto_cancel_pending_orders now2 (auto_cancel_pending_orders now db).2 =
      (0, (auto_cancel_pending_orders now db).2) := by
  have hany : ∀ it ∈ itemsOf db o.id,
      (db.variants.filter
        (fun v => (sweep_lock_sequence (itemsOf db o.id)).contains v.id)).any
        (fun v => v.id == it.variant_id) = true :=
    fun it hit => locked_any_of_exists _ _ _ (mem_sweep_lock_sequence hit) (hex it hit)
  have hrun : auto_cancel_pending_orders now db =
      (1, { db with
              variants := restoreQuantities db.variants
                (itemQuantities (itemsOf db o.id)),
              orders := [{ o with status := .cancelled, stock_deducted := false,
                                  expires_at := none }] }) := by
    unfold auto_cancel_pending_orders
    rw [horders]
    have hfil : [o].filter (fun x => x.status == OrderStatus.pending) = [o] := by
      simp [hpend]
    rw [hfil]
    simp only [List.map_cons, List.map_nil, List.foldl_cons, List.foldl_nil]
    unfold sweepStep sweepOne
    have hfind : findOrder? db.orders o.id = some o := by
      rw [horders]
      exact List.find?_cons_of_pos _ (by simp)
    simp only [hfind]
    rw [hexp]
    simp only [Bool.not_true, Bool.false_eq_true, if_false]
    simp only [hsd, if_true]
    rw [restoreItemsLocked_eq_restore _ _ hany]
    rw [horders]
    simp [updateOrderIn]
  refine ⟨hrun, ?_, ?_⟩
  · intro it hit
    rw [hrun]
    show lookupStock (restoreQuantities db.variants (itemQuantities (itemsOf db o.id)))
      it.variant_id = _
    rw [lookupStock_restore_mem _ _ _ it.quantity ?keys ?mem]
    · rfl
    case keys =>
      rw [itemQuantities_keys]
      exact hnd
    case mem =>
      exact List.mem_map_of_mem _ hit
  · rw [hrun]
    exact auto_cancel_no_pending now2 _ (by simp)

/-- Concrete store whose single order is Pending, reserved
(stock_deducted = true) and expired at time 31. -/
def sampleExpiredDB : DB :=
  { sampleDelayedDB with
    orders := [{ id := 1, order_number := "AMZ1", user_id := 1, subtotal := 1000,
                 tax_amount := 180, shipping_charge := 100, total_amount := 1280,
                 status := .pending, expires_at := some 30, stock_deducted := true,
                 idempotency_key := "key1", shipping_address_id := 1,
                 billing_address_id := 1, customer_notes := none, created_at := 0 }] }

/-- Witness for C8: sweeping the concrete expired order restores the
stock from 5 to 7 (quantity 2) and a second sweep changes nothing. -/
theorem C8_sweep_restores_once_witness :
    stockOf (auto_cancel_pending_orders 31 sampleExpiredDB).2 1 = some 7 ∧
    auto_cancel_pending_orders 40 (auto_cancel_pending_orders 31 sampleExpiredDB).2 =
      (0, (auto_cancel_pending_orders 31 sampleExpiredDB).2) := by
  have T := C8_sweep_restores_once 31 40 sampleExpiredDB
    { id := 1, order_number := "AMZ1", user_id := 1, subtotal := 1000,
      tax_amount := 180, shipping_charge := 100, total_amount := 1280,
      status := .pending, expires_at := some 30, stock_deducted := true,
      idempotency_key := "key1", shipping_address_id := 1,
      billing_address_id := 1, customer_notes := none, created_at := 0 }
    rfl rfl (by decide) rfl (by decide)
    (fun it hit => by
      have hit2 : it ∈ [({ id := 1, order_id := 1, product_id := 1, variant_id := 1,
                           product_name := "Kurti", variant_details := "Size: M",
                           quantity := 2, unit_price := 500,
                           total_price := 1000 } : OrderItem)] := hit
      rcases List.mem_singleton.mp hit2 with rfl
      decide)
  refine ⟨?_, T.2.2⟩
  have hs := T.2.1
    { id := 1, order_id := 1, product_id := 1, variant_id := 1,
      product_name := "Kurti", variant_details := "Size: M",
      quantity := 2, unit_price := 500, total_price := 1000 }
    (by
      show _ ∈ [({ id := 1, order_id := 1, product_id := 1, variant_id := 1,
                   product_name := "Kurti", variant_details := "Size: M",
                   quantity := 2, unit_price := 500,
                   total_price := 1000 } : OrderItem)]
      exact List.mem_singleton.mpr rfl)
  rw [hs]
  rfl

theorem updateVariant_id_not_found (vs : List ProductVariant) (vid : Nat)
    (f : ProductVariant → ProductVariant) (h : ∀ v ∈ vs, v.id ≠ vid) :
    updateVariant vs vid f = vs := by
  unfold updateVariant
  rw [List.map_congr_left (fun v hv => by rw [if_neg (h v hv)])]
  exact List.map_id vs

/-- The sweep restore over the locked dict computed from a variant table
equals the plain restore fold on any accumulator with the same ids: a
present variant is updated by both, and an absent one is skipped by the
guard on one side and met by an identity update on the other. -/
theorem restoreItemsLocked_filter_eq (ids : List Nat) (items : List OrderItem)
    (hiseq : ∀ it ∈ items, it.variant_id ∈ ids) (vs0 : List ProductVariant) :
    ∀ acc, acc.map (fun v => v.id) = vs0.map (fun v => v.id) →
      restoreItemsLocked (vs0.filter (fun v => ids.contains v.id)) acc items =
        restoreQuantities acc (itemQuantities items) := by
  induction items with
  | nil => intro acc hacc; rfl
  | cons a items ih =>
    intro acc hacc
    rw [restoreItemsLocked_cons]
    by_cases h : (vs0.filter (fun v => ids.contains v.id)).any
        (fun v => v.id == a.variant_id) = true
    · rw [if_pos h]
      rw [ih (fun it hit => hiseq it (List.mem_cons_of_mem _ hit)) _
        (by rw [updateVariant_map_id _ _ _ (addStock_id a.quantity)]; exact hacc)]
      rfl
    · rw [if_neg h]
      have hnone : ∀ v ∈ acc, v.id ≠ a.variant_id := by
        intro v hv he
        have : v.id ∈ vs0.map (fun v => v.id) := by
          rw [← hacc]
          exact List.mem_map_of_mem _ hv
        rcases List.mem_map.mp this with ⟨w, hw, hwid⟩
        refine absurd h ?_
        simp only [not_not]
        refine List.any_eq_true.mpr ⟨w, List.mem_filter.mpr ⟨hw, ?_⟩, by simp [hwid, he]⟩
        rw [hwid, he]
        simpa using hiseq a (List.mem_cons_self a items)
      rw [ih (fun it hit => hiseq it (List.mem_cons_of_mem _ hit)) acc hacc]
      show restoreQuantities acc (itemQuantities items) =
        restoreQuantities (updateVariant acc a.variant_id (addStock a.quantity))
          (itemQuantities items)
      rw [updateVariant_id_not_found acc _ _ hnone]

/-- One user-initiated cancel or one expiry sweep, for the state-machine
fold of the amended C10. -/
inductive CancelOrSweep where
  | cancel (oid u : Nat)
  | sweep (now : Int)

/-- The database after one cancel or sweep invocation. -/
def applyCS : CancelOrSweep → DB → DB
  | .cancel oid u, db => (cancel_order oid u db).2
  | .sweep now, db => (auto_cancel_pending_orders now db).2

/-- Evolution predicate for a single-order store under cancels and
sweeps: the order row survives with its id, the item rows are untouched,
and the variant table is either untouched or has received exactly one
restoration of the order's quantities, in which case stock_deducted has
been cleared. -/
def SingleOrderEvolved (db : DB) (o : Order) (db2 : DB) : Prop :=
  ∃ o2, db2.orders = [o2] ∧ o2.id = o.id ∧ db2.order_items = db.order_items ∧
    ((o2.stock_deducted = o.stock_deducted ∧ db2.variants = db.variants) ∨
     (o.stock_deducted = true ∧ o2.stock_deducted = false ∧
      db2.variants = restoreQuantities db.variants (itemQuantities (itemsOf db o.id))))

theorem SingleOrderEvolved.refl (db : DB) (o : Order) (h : db.orders = [o]) :
    SingleOrderEvolved db o db :=
  ⟨o, h, rfl, rfl, Or.inl ⟨rfl, rfl⟩⟩

theorem evolve_cancel (db : DB) (o : Order) (db2 : DB)
    (h : SingleOrderEvolved db o db2) (oid u : Nat) :
    SingleOrderEvolved db o (cancel_order oid u db2).2 := by
  obtain ⟨o2, ho2, hid, hitems, hdisj⟩ := h
  have hitems2 : itemsOf db2 o2.id = itemsOf db o.id := by
    unfold itemsOf
    rw [hitems, hid]
  unfold cancel_order
  rw [ho2]
  by_cases hp : (o2.id == oid && o2.user_id == u) = true
  · have hfind : List.find? (fun x : Order => x.id == oid && x.user_id == u) [o2]
        = some o2 := by
      simp only [List.find?_cons, hp]
    simp only [hfind]
    by_cases hship : (o2.status = .shipped ∨ o2.status = .delivered)
    · rw [if_pos hship]
      exact ⟨o2, ho2, hid, hitems, hdisj⟩
    · rw [if_neg hship]
      by_cases hrc : (o2.stock_deducted &&
          (o2.status == OrderStatus.pending || o2.status == OrderStatus.confirmed ||
           o2.status == OrderStatus.processing)) = true
      · rw [if_pos hrc]
        simp only [hitems2]
        by_cases hall : ((itemsOf db o.id).all
            (fun it => (findVariant? db2.variants it.variant_id).isSome)) = true
        · rw [if_pos hall]
          have hfl2 : o2.stock_deducted = true := by
            have := hrc
            simp only [Bool.and_eq_true] at this
            exact this.1
          rcases hdisj with ⟨hfl, hvar⟩ | ⟨hofl, hfl0, hvar⟩
          · refine ⟨{ o2 with status := OrderStatus.cancelled,
                              stock_deducted := false,
                              expires_at := none }, ?_, hid, hitems, ?_⟩
            · simp [updateOrderIn]
            · refine Or.inr ⟨by rw [← hfl]; exact hfl2, rfl, ?_⟩
              show restoreQuantities db2.variants (itemQuantities (itemsOf db o.id)) = _
              rw [hvar]
          · rw [hfl0] at hfl2
            cases hfl2
        · rw [if_neg hall]
          exact ⟨o2, ho2, hid, hitems, hdisj⟩
      · rw [if_neg hrc]
        refine ⟨{ o2 with status := OrderStatus.cancelled,
                          expires_at := none }, ?_, hid, hitems, ?_⟩
        · simp [updateOrderIn]
        · rcases hdisj with ⟨hfl, hvar⟩ | ⟨hofl, hfl0, hvar⟩
          · exact Or.inl ⟨hfl, hvar⟩
          · exact Or.inr ⟨hofl, hfl0, hvar⟩
  · have hp2 : (o2.id == oid && o2.user_id == u) = false := by
      simpa using hp
    have hfind : List.find? (fun x : Order => x.id == oid && x.user_id == u) [o2]
        = none := by
      simp only [List.find?_cons, hp2]
      rfl
    simp only [hfind]
    exact ⟨o2, ho2, hid, hitems, hdisj⟩

theorem evolve_sweep (db : DB) (o : Order) (db2 : DB)
    (h : SingleOrderEvolved db o db2) (now : Int) :
    SingleOrderEvolved db o (auto_cancel_pending_orders now db2).2 := by
  obtain ⟨o2, ho2, hid, hitems, hdisj⟩ := h
  have hitems2 : itemsOf db2 o2.id = itemsOf db o.id := by
    unfold itemsOf
    rw [hitems, hid]
  unfold auto_cancel_pending_orders
  rw [ho2]
  by_cases hpend : (o2.status == OrderStatus.pending) = true
  · have hfil : [o2].filter (fun x => x.status == OrderStatus.pending) = [o2] := by
      simp only [List.filter, hpend]
    rw [hfil]
    simp only [List.map_cons, List.map_nil, List.foldl_cons, List.foldl_nil]
    unfold sweepStep sweepOne
    have hfind : findOrder? db2.orders o2.id = some o2 := by
      rw [ho2]
      unfold findOrder?
      simp [List.find?_cons]
    simp only [hfind]
    by_cases hexp : expiredAt now o2 = true
    · rw [hexp]
      simp only [Bool.not_true, Bool.false_eq_true, if_false]
      by_cases hsd : o2.stock_deducted = true
      · simp only [hsd, if_true]
        simp only [hitems2]
        rw [restoreItemsLocked_filter_eq (sweep_lock_sequence (itemsOf db o.id))
          (itemsOf db o.id) (fun it hit => mem_sweep_lock_sequence hit) db2.variants
          db2.variants rfl]
        refine ⟨{ o2 with stock_deducted := false,
                          status := OrderStatus.cancelled,
                          expires_at := none }, ?_, hid, hitems, ?_⟩
        · simp [updateOrderIn, ho2]
        · rcases hdisj with ⟨hfl, hvar⟩ | ⟨hofl, hfl0, hvar⟩
          · refine Or.inr ⟨by rw [← hfl]; exact hsd, rfl, ?_⟩
            show restoreQuantities db2.variants (itemQuantities (itemsOf db o.id)) = _
            rw [hvar]
          · rw [hfl0] at hsd
            cases hsd
      · simp only [hsd]
        have hsd2 : o2.stock_deducted = false := by
          cases hb : o2.stock_deducted
          · rfl
          · rw [hb] at hsd; cases hsd rfl
        simp only [hsd2, Bool.false_eq_true, if_false]
        refine ⟨{ o2 with status := OrderStatus.cancelled,
                          expires_at := none }, ?_, hid, hitems, ?_⟩
        · simp [updateOrderIn, ho2]
        · rcases hdisj with ⟨hfl, hvar⟩ | ⟨hofl, hfl0, hvar⟩
          · exact Or.inl ⟨hfl, hvar⟩
          · exact Or.inr ⟨hofl, hfl0, hvar⟩
    · have hexp2 : expiredAt now o2 = false := by
        cases hb : expiredAt now o2
        · rfl
        · rw [hb] at hexp; cases hexp rfl
      rw [hexp2]
      exact ⟨o2, ho2, hid, hitems, hdisj⟩
  · have hp2 : (o2.status == OrderStatus.pending) = false := by
      simpa using hpend
    have hfil : [o2].filter (fun x => x.status == OrderStatus.pending) = [] := by
      simp only [List.filter, hp2]
    rw [hfil]
    exact ⟨o2, ho2, hid, hitems, hdisj⟩

theorem evolve_fold (db : DB) (o : Order) (h0 : db.orders = [o])
    (ops : List CancelOrSweep) :
    SingleOrderEvolved db o (ops.foldl (fun acc op => applyCS op acc) db) := by
  suffices h : ∀ db2, SingleOrderEvolved db o db2 →
      SingleOrderEvolved db o (ops.foldl (fun acc op => applyCS op acc) db2) from
    h db (SingleOrderEvolved.refl db o h0)
  induction ops with
  | nil => intro db2 h2; exact h2
  | cons op ops ih =>
    intro db2 h2
    rw [List.foldl_cons]
    refine ih _ ?_
    cases op with
    | cancel oid u => exact evolve_cancel db o db2 h2 oid u
    | sweep now => exact evolve_sweep db o db2 h2 now

/-- Concrete store whose single order is already Shipped with the
reservation flag cleared. -/
def sampleShippedDB : DB :=
  { sampleSuccessDB with
    orders := [{ id := 1, order_number := "AMZ1", user_id := 1, subtotal := 1000,
                 tax_amount := 180, shipping_charge := 100, total_amount := 1280,
                 status := .shipped, expires_at := none, stock_deducted := false,
                 idempotency_key := "key1", shipping_address_id := 1,
                 billing_address_id := 1, customer_notes := none, created_at := 0 }] }

/-- Counterexample to C10 as stated: cancelling an order whose
stock_deducted flag is false does NOT always succeed — a Shipped order
with the flag false is rejected with the cannot-cancel error. -/
theorem C10_counterexample_shipped_flag_false_fails :
    sampleShippedDB.orders.map (fun o => (o.status, o.stock_deducted))
        = [(.shipped, false)] ∧
    cancel_order 1 1 sampleShippedDB = (.error .cannotCancelShipped, sampleShippedDB) :=
  ⟨rfl, rfl⟩

/-- C10 amended: cancelling an order that is already Cancelled, or whose
stock_deducted flag is false, succeeds without error and modifies no
variant stock PROVIDED the order is not Shipped or Delivered (those are
rejected); and because restoration is gated on stock_deducted and the
flag is cleared on restoration, any sequence of user cancels and expiry
sweeps restores a given order's stock at most once: the variant table
ends either untouched or with exactly one application of the order's
restore quantities. -/
theorem C10_cancel_noop_and_restore_at_most_once :
    (∀ (order_id u : Nat) (db : DB) (order : Order),
      db.orders.find? (fun x => x.id == order_id && x.user_id == u) = some order →
      ¬(order.status = .shipped ∨ order.status = .delivered) →
      (order.status = .cancelled ∨ order.stock_deducted = false) →
      cancel_order order_id u db =
        (.ok (), { db with orders := updateOrderIn db.orders order.id
                               (fun x => { x with status := .cancelled, expires_at := none }) })) ∧
    (∀ (db : DB) (o : Order), db.orders = [o] → ∀ ops : List CancelOrSweep,
      (ops.foldl (fun acc op => applyCS op acc) db).variants = db.variants ∨
      (o.stock_deducted = true ∧
       (ops.foldl (fun acc op => applyCS op acc) db).variants =
         restoreQuantities db.variants (itemQuantities (itemsOf db o.id)))) := by
  constructor
  · intro order_id u db order hfind hship hcf
    unfold cancel_order
    simp only [hfind]
    rw [if_neg hship]
    have hcond : (order.stock_deducted &&
        (order.status == OrderStatus.pending || order.status == OrderStatus.confirmed ||
         order.status == OrderStatus.processing)) = false := by
      rcases hcf with hc | hf
      · simp [hc]
      · simp [hf]
    rw [if_neg (by simp [hcond])]
  · intro db o h0 ops
    obtain ⟨o2, ho2, hid, hitems, hdisj⟩ := evolve_fold db o h0 ops
    rcases hdisj with ⟨_, hvar⟩ | ⟨hofl, _, hvar⟩
    · exact Or.inl hvar
    · exact Or.inr ⟨hofl, hvar⟩

/-- Concrete store whose single order is already Cancelled. -/
def sampleCancelledDB : DB :=
  { sampleSuccessDB with
    orders := [{ id := 1, order_number := "AMZ1", user_id := 1, subtotal := 1000,
                 tax_amount := 180, shipping_charge := 100, total_amount := 1280,
                 status := .cancelled, expires_at := none, stock_deducted := false,
                 idempotency_key := "key1", shipping_address_id := 1,
                 billing_address_id := 1, customer_notes := none, created_at := 0 }] }

/-- Witness for the amended C10: cancelling the already-cancelled sample
order succeeds without touching stock, and a concrete cancel-then-sweep
sequence leaves the variant table untouched or restored exactly once. -/
theorem C10_cancel_noop_and_restore_at_most_once_witness :
    cancel_order 1 1 sampleCancelledDB =
      (.ok (), { sampleCancelledDB with
                   orders := updateOrderIn sampleCancelledDB.orders 1
                               (fun x => { x with status := .cancelled, expires_at := none }) }) ∧
    (([CancelOrSweep.cancel 1 1, CancelOrSweep.sweep 99].foldl
        (fun acc op => applyCS op acc) sampleCancelledDB).variants =
          sampleCancelledDB.variants ∨
     (({ id := 1, order_number := "AMZ1", user_id := 1, subtotal := 1000,
         tax_amount := 180, shipping_charge := 100, total_amount := 1280,
         status := .cancelled, expires_at := none, stock_deducted := false,
         idempotency_key := "key1", shipping_address_id := 1,
         billing_address_id := 1, customer_notes := none,
         created_at := 0 } : Order).stock_deducted = true ∧
      ([CancelOrSweep.cancel 1 1, CancelOrSweep.sweep 99].foldl
        (fun acc op => applyCS op acc) sampleCancelledDB).variants =
          restoreQuantities sampleCancelledDB.variants
            (itemQuantities (itemsOf sampleCancelledDB 1)))) :=
  ⟨C10_cancel_noop_and_restore_at_most_once.1 1 1 sampleCancelledDB
     { id := 1, order_number := "AMZ1", user_id := 1, subtotal := 1000,
       tax_amount := 180, shipping_charge := 100, total_amount := 1280,
       status := .cancelled, expires_at := none, stock_deducted := false,
       idempotency_key := "key1", shipping_address_id := 1,
       billing_address_id := 1, customer_notes := none, created_at := 0 }
     rfl (by decide) (Or.inl rfl),
   C10_cancel_noop_and_restore_at_most_once.2 sampleCancelledDB
     { id := 1, order_number := "AMZ1", user_id := 1, subtotal := 1000,
       tax_amount := 180, shipping_charge := 100, total_amount := 1280,
       status := .cancelled, expires_at := none, stock_deducted := false,
       idempotency_key := "key1", shipping_address_id := 1,
       billing_address_id := 1, customer_notes := none, created_at := 0 }
     rfl [CancelOrSweep.cancel 1 1, CancelOrSweep.sweep 99]⟩

end Amzira
